import Mathlib

/-!
Verification development for the Atto4 embed-resolution and proxying engine.

The definitions below are a shallow embedding of the TypeScript sources:
  * `src/app/api/check-embed/route.ts` (merged proxy + check-embed route),
  * `src/lib/api/video-api.ts`,
  * `src/components/player/VideoPlayer.tsx` (first variant in the file).

JavaScript strings are modelled as Lean `String`s (with helper functions over
`String.data` mirroring the JS string methods used by the sources), JS numbers
as an inductive `JsNum` (finite integral values plus `NaN`; the code under
verification only ever produces or checks integral values, and `NaN` stands
for every non-finite result of `Number(...)`), and network I/O as explicit
oracles (`probe` / `fetchUpstream` functions) together with a log of the URLs
actually fetched, so that "zero network calls" is a statement about that log.
-/

set_option maxRecDepth 10000
set_option maxHeartbeats 1000000

namespace Atto4

/-! ### JavaScript primitives -/
/-- Model of a JS number as it flows through this code: an integral finite
value or `NaN` (standing for every non-finite value, which the route code
only ever tests via `Number.isFinite`). -/
inductive JsNum where
  | nan : JsNum
  | val : Int → JsNum
deriving DecidableEq, Repr

/-- JS template-literal rendering of a number (`${n}`). -/
def numToString : JsNum → String
  | .nan => "NaN"
  | .val i => toString i

/-- JS template-literal rendering of a `number | undefined` value. -/
def optNumToString : Option JsNum → String
  | none => "undefined"
  | some n => numToString n

/-- JS truthiness of a number: `NaN` and `0` are falsy. -/
def numTruthy : JsNum → Bool
  | .nan => false
  | .val i => i != 0

/-- JS truthiness of a `number | undefined` value. -/
def optNumTruthy : Option JsNum → Bool
  | none => false
  | some n => numTruthy n

/-- The check `Number.isFinite(x) && x > 0` used for tmdb ids. -/
def numPos : JsNum → Bool
  | .nan => false
  | .val i => 0 < i

/-- The check `Number.isFinite(x) && x > 0` on a `number | undefined`
value (`Number.isFinite(undefined)` is `false`). -/
def optNumPos : Option JsNum → Bool
  | none => false
  | some n => numPos n

/-- Digits of a decimal numeral folded into a `Nat`. -/
def digitsToNat (l : List Char) : Nat :=
  l.foldl (fun a c => a * 10 + (c.toNat - 48)) 0

/-- Model of the JS `Number(string)` conversion, for the input forms the
claims exercise: a non-empty all-digit string converts to that integer and
anything else to `NaN`.  (JS additionally accepts signs, decimals and hex,
none of which occur in the inputs considered here.) -/
def jsNumber (s : String) : JsNum :=
  if s.data ≠ [] ∧ s.data.all Char.isDigit then .val (Int.ofNat (digitsToNat s.data)) else .nan

/-! ### JS string helpers (over `String.data`) -/
/-- The double-quote character. -/
def dq : Char := Char.ofNat 34

/-- The single-quote character. -/
def sq : Char := Char.ofNat 39

/-- The backtick character. -/
def bq : Char := Char.ofNat 96

/-- JS `s.toLowerCase()` restricted to ASCII (all strings in this code are ASCII). -/
def strLower (s : String) : String := ⟨s.data.map Char.toLower⟩

/-- JS `s.startsWith(pre)`. -/
def strStarts (s pre : String) : Bool := pre.data.isPrefixOf s.data

/-- JS `s.endsWith(suf)`. -/
def strEnds (s suf : String) : Bool := suf.data.isSuffixOf s.data

/-- Drop the first `n` characters of a string (used to model slicing off a
known scheme or `www.` prefix). -/
def strDrop (s : String) (n : Nat) : String := ⟨s.data.drop n⟩

/-- JS `s.slice(0, n)`. -/
def strTake (s : String) (n : Nat) : String := ⟨s.data.take n⟩

/-- Helper for JS `s.includes(pat)` over char lists. -/
def listContains (pat : List Char) : List Char → Bool
  | [] => pat.isEmpty
  | c :: cs => pat.isPrefixOf (c :: cs) || listContains pat cs

/-- JS `s.includes(pat)`. -/
def strContains (s pat : String) : Bool := listContains pat.data s.data

/-! ### Host allowlist gate (`route.ts`, `ALLOWED_HOSTS` / `getHostname` /
`hostAllowedHost` / `hostAllowedUrl`) -/
/-- The `ALLOWED_HOSTS` configuration list of `route.ts`. -/
def ALLOWED_HOSTS : List String :=
  [ "vidlink.pro"
  , "vidsrc.to"
  , "vidsrc.stream"
  , "2embed.cc"
  , "embedsb.com"
  , "doodstream.com"
  , "streamtape.com"
  , "111movies.com"
  , "player.111movies.com"
  , "embed.111movies.com" ]

/-- Model of `new URL(u).hostname` for absolute http(s) URLs.  The WHATWG
parser lower-cases the host; the authority runs up to the first `/`, `?` or
`#`; userinfo (up to the last `@`) and a `:port` suffix are stripped.  A
string without an `http://`/`https://` scheme or with an empty host makes
the `URL` constructor throw, modelled as `none` (the repository never passes
a parseable URL of any other scheme to `getHostname`). -/
def urlHostname (u : String) : Option String :=
  let l := strLower u
  let rest? : Option String :=
    if strStarts l "https://" then some (strDrop l 8)
    else if strStarts l "http://" then some (strDrop l 7)
    else none
  match rest? with
  | none => none
  | some rest =>
    let auth := (rest.data.takeWhile (fun c => !(c == '/' || c == '?' || c == '#')))
    let hostPort := (auth.foldl (fun acc c => if c == '@' then [] else acc ++ [c]) [])
    let host := hostPort.takeWhile (fun c => c != ':')
    if host.isEmpty then none else some ⟨host⟩

/-- `getHostname` from `route.ts`: `null`/empty input and parse failures give
`null`; otherwise the hostname with a leading `www.` removed, lower-cased
(`new URL(u).hostname.replace(/^www\./, "").toLowerCase()`; the hostname is
already lower-case when it comes out of the URL parser). -/
def getHostname (u : String) : Option String :=
  if u = "" then none
  else
    match urlHostname u with
    | none => none
    | some h => some (strLower (if strStarts h "www." then strDrop h 4 else h))

/-- `hostAllowedHost` from `route.ts`: a falsy host is refused; otherwise the
host must equal an allowlist entry or end in `"." + entry`. -/
def hostAllowedHost (host : Option String) : Bool :=
  match host with
  | none => false
  | some h =>
    if h = "" then false
    else ALLOWED_HOSTS.any (fun a => h == a || strEnds h ("." ++ a))

/-- `hostAllowedUrl` from `route.ts`. -/
def hostAllowedUrl (u : String) : Bool :=
  hostAllowedHost (getHostname u)

/-! ### `encodeURIComponent` -/
/-- Upper-case hex digit, as produced by JS percent-encoding. -/
def hexUpper : Nat → Char
  | 0 => '0' | 1 => '1' | 2 => '2' | 3 => '3' | 4 => '4'
  | 5 => '5' | 6 => '6' | 7 => '7' | 8 => '8' | 9 => '9'
  | 10 => 'A' | 11 => 'B' | 12 => 'C' | 13 => 'D' | 14 => 'E' | 15 => 'F'
  | _ + 16 => '0'

/-- UTF-8 encoding of a single code point. -/
def utf8Bytes (c : Char) : List Nat :=
  let n := c.toNat
  if n < 128 then [n]
  else if n < 2048 then [192 + n / 64, 128 + n % 64]
  else if n < 65536 then [224 + n / 4096, 128 + (n / 64) % 64, 128 + n % 64]
  else [240 + n / 262144, 128 + (n / 4096) % 64, 128 + (n / 64) % 64, 128 + n % 64]

/-- The characters `encodeURIComponent` leaves unescaped:
`A-Z a-z 0-9 - _ . ! ~ * ' ( )`. -/
def uriUnreserved (c : Char) : Bool :=
  c.isAlpha || c.isDigit || c == '-' || c == '_' || c == '.' || c == '!' ||
    c == '~' || c == '*' || c == sq || c == '(' || c == ')'

/-- `encodeURIComponent` over a char list: unreserved characters are copied,
everything else is percent-encoded byte-wise from its UTF-8 form. -/
def encodeURIComponentL (l : List Char) : List Char :=
  l.flatMap fun c =>
    if uriUnreserved c then [c]
    else (utf8Bytes c).flatMap fun b => ['%', hexUpper (b / 16), hexUpper (b % 16)]

/-- JS `encodeURIComponent`. -/
def encodeURIComponent (s : String) : String := ⟨encodeURIComponentL s.data⟩

/-! ### Candidate generator (`buildAllEmbedCandidates` in `route.ts`) -/
/-- One embed candidate as produced by the `make` helper of
`buildAllEmbedCandidates`. -/
structure Cand where
  provider : String
  originalUrl : String
  proxyCandidate : String
  type : String
deriving DecidableEq, Repr

/-- The `make` closure of `buildAllEmbedCandidates`: pairs a provider URL
with its pre-computed proxy path `/api/proxy?target=<encoded url>`. -/
def mkCand (provider url type : String) : Cand :=
  { provider := provider
  , originalUrl := url
  , proxyCandidate := "/api/proxy?target=" ++ encodeURIComponent url
  , type := type }

/-- `buildAllEmbedCandidates(mediaType, tmdbId, season?, episode?)` from
`route.ts`: three native candidates (VidLink, VidSrc, 2Embed) for the given
media type, plus a `tv-fallback` candidate when the request is a movie with
truthy season and episode, or a `movie-fallback` candidate when the request
is a tv request. -/
def buildAllEmbedCandidates (mediaType : String) (tmdbId : JsNum)
    (season episode : Option JsNum) : List Cand :=
  let base : List Cand :=
    if mediaType == "movie" then
      [ mkCand "VidLink"
          ("https://vidlink.pro/movie/" ++ numToString tmdbId ++
            "?primaryColor=3a86ff&autoplay=true&nextbutton=true") "movie"
      , mkCand "VidSrc" ("https://vidsrc.to/embed/movie/" ++ numToString tmdbId) "movie"
      , mkCand "2Embed" ("https://2embed.cc/embed/movie?tmdb=" ++ numToString tmdbId) "movie" ]
    else
      [ mkCand "VidLink"
          ("https://vidlink.pro/tv/" ++ numToString tmdbId ++ "/" ++ optNumToString season ++
            "/" ++ optNumToString episode ++
            "?primaryColor=3a86ff&autoplay=true&nextbutton=true") "tv"
      , mkCand "VidSrc"
          ("https://vidsrc.to/embed/tv/" ++ numToString tmdbId ++ "/" ++ optNumToString season ++
            "/" ++ optNumToString episode) "tv"
      , mkCand "2Embed"
          ("https://2embed.cc/embed/tv?tmdb=" ++ numToString tmdbId ++ "&season=" ++
            optNumToString season ++ "&episode=" ++ optNumToString episode) "tv" ]
  base ++
    (if mediaType == "movie" && optNumTruthy season && optNumTruthy episode then
      [ mkCand "VidLink-Fallback"
          ("https://vidlink.pro/tv/" ++ numToString tmdbId ++ "/" ++ optNumToString season ++
            "/" ++ optNumToString episode ++
            "?primaryColor=3a86ff&autoplay=true&nextbutton=true") "tv-fallback" ]
    else if mediaType == "tv" then
      [ mkCand "VidSrc-Fallback" ("https://vidsrc.to/embed/movie/" ++ numToString tmdbId)
          "movie-fallback" ]
    else [])

/-! ### Bounded-timeout fetch with retry (`fetchWithTimeoutAndRetry`) and the
single-shot prober (`fetchTest`) from `route.ts` -/
/-- A network-level fetch failure, together with the transience
classification the source computes from the error message
(`/ECONNRESET|ETIMEDOUT|EAI_AGAIN|ENOTFOUND|network|timeout|aborted|Failed to fetch/i`
or the error code). -/
structure FetchErr where
  transient : Bool
  msg : String
deriving DecidableEq, Repr

/-- Observable behaviour of one run of `fetchWithTimeoutAndRetry`: the final
result, the backoff sleeps performed between attempts, and the number of
`fetch` calls issued. -/
structure RetryRun (α : Type) where
  result : Except String α
  sleeps : List Nat
  attempts : Nat

/-- The attempt loop of `fetchWithTimeoutAndRetry`, with the network
abstracted as an oracle from the attempt index to an outcome.  The fuel is
an upper bound on the remaining attempts (`retries - attempt + 1`); the
fuel-exhausted clause mirrors the function's trailing
`throw new Error("unreachable fetchWithTimeoutAndRetry")`. -/
def fwtLoop {α : Type} (oracle : Nat → Except FetchErr α) (retries : Nat) :
    Nat → Nat → RetryRun α
  | _, 0 => { result := .error "unreachable fetchWithTimeoutAndRetry", sleeps := [], attempts := 0 }
  | attempt, fuel + 1 =>
    match oracle attempt with
    | .ok r => { result := .ok r, sleeps := [], attempts := 1 }
    | .error e =>
      if attempt == retries || !e.transient then
        { result := .error ("fetch failed (attempt " ++ toString (attempt + 1) ++ "): " ++ e.msg)
        , sleeps := []
        , attempts := 1 }
      else
        let rest := fwtLoop oracle retries (attempt + 1) fuel
        { result := rest.result
        , sleeps := 300 * 2 ^ attempt :: rest.sleeps
        , attempts := rest.attempts + 1 }

/-- `fetchWithTimeoutAndRetry(url, timeoutMs, retries)`: attempts run from 0
to `retries`; a transient failure before the last attempt sleeps
`300 * 2 ** attempt` and retries, anything else surfaces immediately. -/
def fetchWithTimeoutAndRetry {α : Type} (oracle : Nat → Except FetchErr α)
    (_timeoutMs retries : Nat) : RetryRun α :=
  fwtLoop oracle retries 0 (retries + 1)

/-- A minimal upstream HTTP response as seen by `fetchTest` and the proxy. -/
structure UpstreamResp where
  ok : Bool
  status : Nat
  statusText : String
  contentType : String
  bodyText : String
deriving DecidableEq, Repr

/-- The probe outcome record produced by `fetchTest` (wall-clock latency is
not modelled and is reported as 0). -/
structure FetchOut where
  ok : Bool
  status : Option Nat := none
  statusText : Option String := none
  responseTime : Nat := 0
  bodySnippet : Option String := none
  error : Option String := none
deriving DecidableEq, Repr

/-- One run of `fetchTest`, with the number of `fetch` calls it issued. -/
structure FetchTestRun where
  out : FetchOut
  attempts : Nat
deriving DecidableEq, Repr

/-- `fetchTest(url, timeoutMs)` from `route.ts`: a single bounded-timeout GET
with no retry loop.  A non-2xx response reports `ok: false` with an `HTTP n`
error and a 2000-byte body snippet; a thrown fetch error reports its
message. -/
def fetchTestModel (oracle : Unit → Except FetchErr UpstreamResp) : FetchTestRun :=
  match oracle () with
  | .ok res =>
    if !res.ok then
      { out := { ok := false, status := some res.status, statusText := some res.statusText
               , bodySnippet := some (strTake res.bodyText 2000)
               , error := some ("HTTP " ++ toString res.status) }
      , attempts := 1 }
    else
      { out := { ok := true, status := some res.status, statusText := some res.statusText }
      , attempts := 1 }
  | .error e =>
    { out := { ok := false, error := some e.msg }, attempts := 1 }

/-! ### HTML rewriting (`rewriteAbsoluteUrlsToProxy` in `route.ts`)

The two JS regex-replace passes are embedded as character-list scanners with
the same semantics: scan left to right, at each position try the (anchored)
regex; on a match emit its replacement and resume after the match, otherwise
copy one character.  Greedy `[^"]+`-style classes become `takeWhile`.  The
`/i` flag on the literal parts (`src`, `href`, `https?`) becomes explicit
two-case character tests. -/
/-- Case-insensitive character tests for the literal regex parts. -/
def isS (c : Char) : Bool := c == 's' || c == 'S'

/-- Case-insensitive test for `r`. -/
def isR (c : Char) : Bool := c == 'r' || c == 'R'

/-- Case-insensitive test for `c`. -/
def isC (c : Char) : Bool := c == 'c' || c == 'C'

/-- Case-insensitive test for `h`. -/
def isH (c : Char) : Bool := c == 'h' || c == 'H'

/-- Case-insensitive test for `e`. -/
def isE (c : Char) : Bool := c == 'e' || c == 'E'

/-- Case-insensitive test for `f`. -/
def isF (c : Char) : Bool := c == 'f' || c == 'F'

/-- Case-insensitive test for `t`. -/
def isT (c : Char) : Bool := c == 't' || c == 'T'

/-- Case-insensitive test for `p`. -/
def isP (c : Char) : Bool := c == 'p' || c == 'P'

/-- Match a list of character tests against a prefix of the input, returning
the consumed characters (in their original case) and the remainder. -/
def matchLits : List (Char → Bool) → List Char → Option (List Char × List Char)
  | [], s => some ([], s)
  | _ :: _, [] => none
  | p :: ps, c :: cs =>
    if p c then
      match matchLits ps cs with
      | some (t, r) => some (c :: t, r)
      | none => none
    else none

/-- Require the literal `://` after the matched `http`/`https` letters. -/
def matchSchemeTail (t4 : List Char) : List Char → Option (List Char × List Char)
  | c1 :: c2 :: c3 :: r =>
    if c1 = ':' ∧ c2 = '/' ∧ c3 = '/' then some (t4 ++ [c1, c2, c3], r) else none
  | _ => none

/-- Match the regex fragment `https?:\/\/` (case-insensitive on the letters).
The optional `s?` needs no backtracking: when an `s` is present but not
followed by `://`, the `s`-less alternative would require `:` at the `s`
position and fail as well. -/
def matchScheme (s : List Char) : Option (List Char × List Char) :=
  match matchLits [isH, isT, isT, isP] s with
  | none => none
  | some (t4, r4) =>
    match r4 with
    | c :: r => if isS c then matchSchemeTail (t4 ++ [c]) r else matchSchemeTail t4 (c :: r)
    | [] => matchSchemeTail t4 []

/-- A match of the first rewrite pass
`/(src|href)=("https?:\/\/[^"]+"|'https?:\/\/[^']+')/gi`. -/
structure M1 where
  matched : List Char
  url : List Char
  attr : List Char
  quote : Char
  rest : List Char

/-- The `src`/`href` alternation of the first pass. -/
def tryAttr (s : List Char) : Option (List Char × List Char) :=
  match matchLits [isS, isR, isC] s with
  | some (t, r) => some (t, r)
  | none => matchLits [isH, isR, isE, isF] s

/-- The quoted-URL tail of the first pass: `https?:\/\/[^q]+q` for the
opening quote `q` (the greedy class runs to the closing quote). -/
def tryQuoted (q : Char) (r2 : List Char) : Option (List Char × List Char) :=
  match matchScheme r2 with
  | none => none
  | some (sch, r3) =>
    let body := r3.takeWhile (fun c => c != q)
    let r4 := r3.dropWhile (fun c => c != q)
    if body.isEmpty then none
    else
      match r4 with
      | c :: r5 => if c = q then some (sch ++ body, r5) else none
      | [] => none

/-- Try the first-pass regex anchored at the head of `s`. -/
def tryMatch1 (s : List Char) : Option M1 :=
  match tryAttr s with
  | none => none
  | some (attr, r1) =>
    match r1 with
    | c0 :: q :: r2 =>
      if c0 = '=' ∧ (q = dq ∨ q = sq) then
        match tryQuoted q r2 with
        | none => none
        | some (url, r5) =>
          some { matched := attr ++ '=' :: q :: url ++ [q]
               , url := url
               , attr := attr
               , quote := q
               , rest := r5 }
      else none
    | _ => none

/-- Replacement of a first-pass match: an allowlisted URL becomes
`attr="/api/proxy?target=<encoded>"`, anything else is emitted unchanged
(`attr=quotedUrl` reconstructs the matched text exactly). -/
def repl1 (m : M1) : List Char :=
  if hostAllowedUrl ⟨m.url⟩ then
    m.attr ++ '=' :: dq :: ("/api/proxy?target=".data ++ encodeURIComponentL m.url) ++ [dq]
  else m.matched

/-- First rewrite pass; the fuel is the input length (each step consumes at
least one character). -/
def pass1A : Nat → List Char → List Char
  | _, [] => []
  | 0, s => s
  | f + 1, c :: cs =>
    match tryMatch1 (c :: cs) with
    | some m => repl1 m ++ pass1A f m.rest
    | none => c :: pass1A f cs

/-- URLs matched by the first pass (in scan order). -/
def pass1Urls : Nat → List Char → List (List Char)
  | _, [] => []
  | 0, _ => []
  | f + 1, c :: cs =>
    match tryMatch1 (c :: cs) with
    | some m => m.url :: pass1Urls f m.rest
    | none => pass1Urls f cs

/-- A match of the second rewrite pass
`/(['"`])(https?:\/\/[^'"` ]+)['"`]/gi`. -/
structure M2 where
  matched : List Char
  url : List Char
  quote : Char
  rest : List Char

/-- The character class `['"`]` of the second pass. -/
def isQuote2 (c : Char) : Bool := c == dq || c == sq || c == bq

/-- The quoted-literal tail of the second pass: `https?:\/\/[^'"` ]+`
followed by any closing quote.  The greedy class succeeds only when the
character right after the maximal run is a quote (shrinking the run on
backtracking can never expose one). -/
def tryQuoted2 (r1 : List Char) : Option (List Char × Char × List Char) :=
  match matchScheme r1 with
  | none => none
  | some (sch, r3) =>
    let body := r3.takeWhile (fun c => !(isQuote2 c || c == ' '))
    let r4 := r3.dropWhile (fun c => !(isQuote2 c || c == ' '))
    if body.isEmpty then none
    else
      match r4 with
      | c :: r5 => if isQuote2 c then some (sch ++ body, c, r5) else none
      | [] => none

/-- Try the second-pass regex anchored at the head of `s`. -/
def tryMatch2 (s : List Char) : Option M2 :=
  match s with
  | [] => none
  | q :: r1 =>
    if isQuote2 q then
      match tryQuoted2 r1 with
      | none => none
      | some (url, c, r5) =>
        some { matched := q :: url ++ [c]
             , url := url
             , quote := q
             , rest := r5 }
    else none

/-- Replacement of a second-pass match: an allowlisted URL becomes
`quote + "/api/proxy?target=<encoded>" + quote` (the opening quote is reused
on both sides, as in the source), anything else is emitted unchanged. -/
def repl2 (m : M2) : List Char :=
  if hostAllowedUrl ⟨m.url⟩ then
    m.quote :: ("/api/proxy?target=".data ++ encodeURIComponentL m.url) ++ [m.quote]
  else m.matched

/-- Second rewrite pass. -/
def pass2A : Nat → List Char → List Char
  | _, [] => []
  | 0, s => s
  | f + 1, c :: cs =>
    match tryMatch2 (c :: cs) with
    | some m => repl2 m ++ pass2A f m.rest
    | none => c :: pass2A f cs

/-- URLs matched by the second pass (in scan order). -/
def pass2Urls : Nat → List Char → List (List Char)
  | _, [] => []
  | 0, _ => []
  | f + 1, c :: cs =>
    match tryMatch2 (c :: cs) with
    | some m => m.url :: pass2Urls f m.rest
    | none => pass2Urls f cs

/-- The first `replace` of `rewriteAbsoluteUrlsToProxy`. -/
def pass1 (s : String) : String := ⟨pass1A s.data.length s.data⟩

/-- The second `replace` of `rewriteAbsoluteUrlsToProxy`. -/
def pass2 (s : String) : String := ⟨pass2A s.data.length s.data⟩

/-- `rewriteAbsoluteUrlsToProxy(htmlText)` from `route.ts`: the attribute
pass followed by the quoted-string-literal pass over its output. -/
def rewriteAbsoluteUrlsToProxy (htmlText : String) : String := pass2 (pass1 htmlText)

/-- Every URL occurrence either pass would consider in `html` (attribute
values first, then quoted literals in the output of the first pass). -/
def foundUrls (html : String) : List String :=
  (pass1Urls html.data.length html.data).map (fun l => ⟨l⟩) ++
    (pass2Urls (pass1 html).data.length (pass1 html).data).map (fun l => ⟨l⟩)

/-! ### Reverse proxy handler (`handleProxyGET` in `route.ts`) -/
/-- Observable outcome of one `handleProxyGET` run: the HTTP status of the
response, the upstream URLs actually fetched, and the body relayed (for
HTML, after rewriting). -/
structure ProxyResult where
  status : Nat
  fetched : List String
  body : Option String
deriving DecidableEq, Repr

/-- `handleProxyGET(request)` from `route.ts`, with the `target` query
parameter made explicit (`none` models an absent parameter; the empty
string is falsy in JS and handled by the same `!target` test) and the
upstream network abstracted as an oracle (one oracle consultation stands
for the whole `fetchWithTimeoutAndRetry(target, 10000, 2)` call, whose
internal retry behaviour is modelled separately; `fetched` records the
targets for which any upstream traffic at all is issued).  Status 403 is
returned for a parseable but non-allowlisted host before the oracle is
consulted. -/
def handleProxyGET (target : Option String)
    (fetchUpstream : String → Except String UpstreamResp) : ProxyResult :=
  match target with
  | none => { status := 400, fetched := [], body := none }
  | some t =>
    if t = "" then { status := 400, fetched := [], body := none }
    else
      match getHostname t with
      | none => { status := 400, fetched := [], body := none }
      | some hostname =>
        if !hostAllowedHost (some hostname) then
          { status := 403, fetched := [], body := none }
        else
          match fetchUpstream t with
          | .error _ => { status := 502, fetched := [t], body := none }
          | .ok resp =>
            if !resp.ok then
              { status := 502, fetched := [t], body := some (strTake resp.bodyText 2000) }
            else if strContains resp.contentType "text/html" then
              { status := resp.status, fetched := [t]
              , body := some (rewriteAbsoluteUrlsToProxy resp.bodyText) }
            else
              { status := resp.status, fetched := [t], body := some resp.bodyText }

/-! ### Check-embed POST handler (`handleCheckEmbedPOST` in `route.ts`) -/
/-- The parsed JSON body of a check-embed POST request, after the JS
destructuring `{ mediaType, tmdbId, season, episode, testUrls = true }` and
the `Number(...)` conversions (`Number` of a missing or non-numeric field is
`NaN`, covered by `JsNum.nan`). -/
structure PostBody where
  mediaType : Option String
  tmdbId : JsNum
  season : Option JsNum
  episode : Option JsNum
  testUrls : Bool
deriving DecidableEq, Repr

/-- The per-candidate result record pushed onto `allResults`. -/
structure CandResult where
  provider : String
  type : String
  originalUrl : String
  proxyCandidate : String
  directResult : Option FetchOut
  proxyResult : Option FetchOut
  proxied : Option String
  usedProxy : Bool
  tested : Bool
deriving DecidableEq, Repr

/-- The `primary` record (returned as `workingUrl`). -/
structure Primary where
  provider : String
  url : Option String
  originalUrl : String
  type : String
  usedProxy : Bool
deriving DecidableEq, Repr

/-- The absolute proxy URL for a candidate:
`proxyPath.startsWith("http") ? proxyPath : new URL(proxyPath, req.url).href`
(resolving a root-relative path against the request URL prepends the request
origin). -/
def proxyAbsOf (reqOrigin : String) (c : Cand) : String :=
  if strStarts c.proxyCandidate "http" then c.proxyCandidate
  else reqOrigin ++ c.proxyCandidate

/-- One iteration of the POST testing loop for a single candidate: probe the
original URL directly; on failure, probe the absolute proxy URL only when the
host passes the allowlist gate.  Returns the `allResults` record and the
list of URLs fetched, in order. -/
def processCandidate (probe : String → Nat → FetchOut) (reqOrigin : String) (c : Cand) :
    CandResult × List String :=
  let directResult := probe c.originalUrl 5000
  if directResult.ok then
    ({ provider := c.provider, type := c.type, originalUrl := c.originalUrl
     , proxyCandidate := c.proxyCandidate, directResult := some directResult
     , proxyResult := none, proxied := some c.originalUrl, usedProxy := false
     , tested := true }, [c.originalUrl])
  else if hostAllowedUrl c.originalUrl then
    let proxyAbsolute := proxyAbsOf reqOrigin c
    let proxyResult := probe proxyAbsolute 7000
    ({ provider := c.provider, type := c.type, originalUrl := c.originalUrl
     , proxyCandidate := c.proxyCandidate, directResult := some directResult
     , proxyResult := some proxyResult, proxied := some proxyAbsolute
     , usedProxy := proxyResult.ok, tested := true }, [c.originalUrl, proxyAbsolute])
  else
    ({ provider := c.provider, type := c.type, originalUrl := c.originalUrl
     , proxyCandidate := c.proxyCandidate, directResult := some directResult
     , proxyResult := none, proxied := none, usedProxy := false
     , tested := true }, [c.originalUrl])

/-- The success test `(r.directResult && r.directResult.ok) ||
(r.proxyResult && r.proxyResult.ok)` used both for choosing `primary` and
for `workingCount`. -/
def resSuccess (r : CandResult) : Bool :=
  (match r.directResult with | some d => d.ok | none => false) ||
    (match r.proxyResult with | some p => p.ok | none => false)

/-- The `primary` record built from a successful candidate. -/
def mkPrim (probe : String → Nat → FetchOut) (reqOrigin : String) (c : Cand) : Primary :=
  let r := (processCandidate probe reqOrigin c).1
  { provider := c.provider, url := r.proxied, originalUrl := c.originalUrl
  , type := c.type, usedProxy := r.usedProxy }

/-- The POST testing loop over the candidate list: `primary` is fixed at the
first success but probing continues over every remaining candidate. -/
def probeLoop (probe : String → Nat → FetchOut) (reqOrigin : String) :
    List Cand → Option Primary × List CandResult × List String
  | [] => (none, [], [])
  | c :: cs =>
    let pr := processCandidate probe reqOrigin c
    let restR := probeLoop probe reqOrigin cs
    ((if resSuccess pr.1 then some (mkPrim probe reqOrigin c) else restR.1)
    , pr.1 :: restR.2.1
    , pr.2 ++ restR.2.2)

/-- The untested `allResults` record used when `testUrls` is false. -/
def untestedResult (c : Cand) : CandResult :=
  { provider := c.provider, type := c.type, originalUrl := c.originalUrl
  , proxyCandidate := c.proxyCandidate, directResult := none, proxyResult := none
  , proxied := some c.originalUrl, usedProxy := false, tested := false }

/-- The `primary` used when `testUrls` is false: the first candidate taken
on trust. -/
def untestedPrim (c : Cand) : Primary :=
  { provider := c.provider, url := some c.originalUrl, originalUrl := c.originalUrl
  , type := c.type, usedProxy := false }

/-- Observable outcome of a check-embed POST: HTTP status, the JSON response
fields the claims are about, and the log of probed URLs. -/
structure PostResponse where
  status : Nat
  workingUrl : Option Primary
  totalTested : Nat
  workingCount : Nat
  allUrls : List CandResult
  probed : List String
deriving DecidableEq, Repr

/-- A 400 response of the POST handler (no probing has happened). -/
def postErr400 : PostResponse :=
  { status := 400, workingUrl := none, totalTested := 0, workingCount := 0
  , allUrls := [], probed := [] }

/-- The candidate list the POST handler builds.  Note that `season` and
`episode` are only assigned inside the `mediaType === "tv"` branch, so a
movie request always reaches `buildAllEmbedCandidates` with both
undefined. -/
def postCandidates (body : PostBody) : List Cand :=
  buildAllEmbedCandidates (body.mediaType.getD "") body.tmdbId
    (if body.mediaType = some "tv" then body.season else none)
    (if body.mediaType = some "tv" then body.episode else none)

/-- The `season`/`episode` validity check of the tv branch:
`Number.isFinite(x) && x > 0` (an undefined value fails `isFinite`). -/
def seasonOk (o : Option JsNum) : Bool :=
  match o with
  | some (.val i) => 0 < i
  | _ => false

/-- `handleCheckEmbedPOST(req)` from `route.ts`, starting from the parsed
JSON body (the empty-body and invalid-JSON 400 paths precede any field
validation and involve no probing either). -/
def handleCheckEmbedPOST (body : PostBody) (probe : String → Nat → FetchOut)
    (reqOrigin : String) : PostResponse :=
  if body.mediaType ≠ some "movie" ∧ body.mediaType ≠ some "tv" then postErr400
  else if !numPos body.tmdbId then postErr400
  else if body.mediaType = some "tv" ∧ (!seasonOk body.season || !seasonOk body.episode) then
    postErr400
  else
    let candidates := postCandidates body
    if body.testUrls then
      let run := probeLoop probe reqOrigin candidates
      { status := 200
      , workingUrl := run.1
      , totalTested := candidates.length
      , workingCount := run.2.1.countP resSuccess
      , allUrls := run.2.1
      , probed := run.2.2 }
    else
      { status := 200
      , workingUrl := candidates.head?.map untestedPrim
      , totalTested := candidates.length
      , workingCount := (candidates.map untestedResult).countP resSuccess
      , allUrls := candidates.map untestedResult
      , probed := [] }

/-! ### Check-embed GET handler (`handleCheckEmbedGET` in `route.ts`) -/
/-- The per-candidate result record of the GET variant (`chosen` falls back
to the original URL when the proxy probe fails). -/
structure GetResult where
  provider : String
  type : String
  originalUrl : String
  proxied : String
  usedProxy : Bool
  direct : Option FetchOut
  proxy : Option FetchOut
  tested : Bool
deriving DecidableEq, Repr

/-- One iteration of the GET testing loop (timeouts 3000/4000; `chosen`
stays on the original URL unless the proxy probe succeeds). -/
def getProcessCandidate (probe : String → Nat → FetchOut) (reqOrigin : String) (c : Cand) :
    GetResult × List String :=
  let directResult := probe c.originalUrl 3000
  if directResult.ok then
    ({ provider := c.provider, type := c.type, originalUrl := c.originalUrl
     , proxied := c.originalUrl, usedProxy := false, direct := some directResult
     , proxy := none, tested := true }, [c.originalUrl])
  else if hostAllowedUrl c.originalUrl then
    let proxyAbs := proxyAbsOf reqOrigin c
    let proxyResult := probe proxyAbs 4000
    ({ provider := c.provider, type := c.type, originalUrl := c.originalUrl
     , proxied := if proxyResult.ok then proxyAbs else c.originalUrl
     , usedProxy := proxyResult.ok, direct := some directResult
     , proxy := some proxyResult, tested := true }, [c.originalUrl, proxyAbs])
  else
    ({ provider := c.provider, type := c.type, originalUrl := c.originalUrl
     , proxied := c.originalUrl, usedProxy := false, direct := some directResult
     , proxy := none, tested := true }, [c.originalUrl])

/-- Success test of a GET result record. -/
def getResSuccess (r : GetResult) : Bool :=
  (match r.direct with | some d => d.ok | none => false) ||
    (match r.proxy with | some p => p.ok | none => false)

/-- The GET loop body over the candidates it visits. -/
def getLoop (probe : String → Nat → FetchOut) (reqOrigin : String) :
    List Cand → Option Primary × List GetResult × List String
  | [] => (none, [], [])
  | c :: cs =>
    let pr := getProcessCandidate probe reqOrigin c
    let restR := getLoop probe reqOrigin cs
    ((if getResSuccess pr.1 then
        some { provider := c.provider, url := some pr.1.proxied
             , originalUrl := c.originalUrl, type := c.type, usedProxy := pr.1.usedProxy }
      else restR.1)
    , pr.1 :: restR.2.1
    , pr.2 ++ restR.2.2)

/-- Observable outcome of a check-embed GET. -/
structure GetResponse where
  status : Nat
  workingUrl : Option Primary
  allUrls : List GetResult
  probed : List String
deriving DecidableEq, Repr

/-- A 400 response of the GET handler. -/
def getErr400 : GetResponse :=
  { status := 400, workingUrl := none, allUrls := [], probed := [] }

/-- JS falsiness of a nullable string (`null` and `""`). -/
def strFalsy (o : Option String) : Bool :=
  match o with
  | none => true
  | some s => s == ""

/-- The candidate list the GET handler builds: `season`/`episode` default to
`1` when the query parameter is absent or empty, and `Number(...)` of the
raw strings is never validated. -/
def getCandidates (mediaType : String) (tmdbIdRaw seasonRaw episodeRaw : Option String) :
    List Cand :=
  buildAllEmbedCandidates mediaType (jsNumber (tmdbIdRaw.getD ""))
    (some (if strFalsy seasonRaw then .val 1 else jsNumber (seasonRaw.getD "")))
    (some (if strFalsy episodeRaw then .val 1 else jsNumber (episodeRaw.getD "")))

/-- `handleCheckEmbedGET(req)` from `route.ts`.  Unlike the POST handler it
validates only the presence of `mediaType`/`tmdbId` and the `mediaType`
value; the tested loop visits only candidates `0 ≤ i < Math.min(3,
candidates.length)`, i.e. `candidates.take 3`, and `allUrls` is
`results.slice(0, 5)`. -/
def handleCheckEmbedGET (mediaType tmdbIdRaw seasonRaw episodeRaw testRaw : Option String)
    (probe : String → Nat → FetchOut) (reqOrigin : String) : GetResponse :=
  if strFalsy mediaType || strFalsy tmdbIdRaw then getErr400
  else if mediaType ≠ some "movie" ∧ mediaType ≠ some "tv" then getErr400
  else
    let candidates := getCandidates (mediaType.getD "") tmdbIdRaw seasonRaw episodeRaw
    let testUrls := testRaw ≠ some "false"
    if testUrls then
      let run := getLoop probe reqOrigin (candidates.take 3)
      { status := 200, workingUrl := run.1, allUrls := run.2.1.take 5, probed := run.2.2 }
    else
      { status := 200
      , workingUrl := candidates.head?.map untestedPrim
      , allUrls := (candidates.map (fun c =>
          { provider := c.provider, type := c.type, originalUrl := c.originalUrl
          , proxied := c.originalUrl, usedProxy := false, direct := none, proxy := none
          , tested := false })).take 5
      , probed := [] }

/-- The always-failing probe used by the concrete counterexamples. -/
def failProbe : String → Nat → FetchOut :=
  fun _ _ => { ok := false, error := some "ECONNREFUSED" }

/-! ### Client failover controller (`handleIframeError` in
`components/player/VideoPlayer.tsx`, first variant) -/
/-- A `ServerAllUrl` entry of the ranked list the player retains from the
check-embed response. -/
structure SAU where
  provider : String
  originalUrl : String
  proxied : Option String
  usedProxy : Bool
  tested : Bool
  direct : Option FetchOut
  proxy : Option FetchOut
deriving DecidableEq, Repr

/-- The reachability flag test
`(cand.direct && cand.direct.ok) || (cand.proxy && cand.proxy.ok)`. -/
def entryOk (e : SAU) : Bool :=
  (match e.direct with | some d => d.ok | none => false) ||
    (match e.proxy with | some p => p.ok | none => false)

/-- `workingSources.findIndex((_, idx) => idx > currentSourceIndex &&
workingSources[idx])`: the first index after the current one (list entries
are objects, hence always truthy). -/
def nextRankedIndex (ws : List SAU) (cur : Nat) : Option Nat :=
  (List.range ws.length).find? (fun idx => decide (cur < idx))

/-- The wrap-around loop: the first index other than the current one whose
entry carries a positive reachability flag. -/
def wrapIndex (ws : List SAU) (cur : Nat) : Option Nat :=
  (ws.enum.find? (fun ie => ie.1 != cur && entryOk ie.2)).map Prod.fst

/-- The ranked-list advance decision of `handleIframeError`: first any entry
at a later index, then any other flagged entry. -/
def nextChoice (ws : List SAU) (cur : Nat) : Option Nat :=
  match nextRankedIndex ws cur with
  | some i => some i
  | none => wrapIndex ws cur

/-- What a `handleIframeError` run does: switch to a ranked entry, switch to
a traditional fallback source, or show the terminal failure. -/
inductive FailoverAction where
  | switchRanked : Nat → FailoverAction
  | switchSource : Nat → FailoverAction
  | failed : FailoverAction
deriving DecidableEq, Repr

/-- Outcome of one `handleIframeError` run together with the URLs it probed
client-side (`testSource` calls). -/
structure FailoverOutcome where
  action : FailoverAction
  probed : List String
deriving DecidableEq, Repr

/-- The emergency fallback of `handleIframeError`: client-side `testSource`
probes over the remaining traditional sources, switching on the first
success and failing terminally otherwise. -/
def emergencyLoop (p : String → Bool) : Nat → List String → FailoverOutcome
  | _, [] => { action := .failed, probed := [] }
  | idx, u :: us =>
    if p u then { action := .switchSource idx, probed := [u] }
    else
      let rest := emergencyLoop p (idx + 1) us
      { action := rest.action, probed := u :: rest.probed }

/-- `handleIframeError` from `VideoPlayer.tsx`: advance through the retained
ranked list (`nextChoice`, no probing), else client-test the traditional
sources from `Math.max(0, cur + 1)` on (which is `cur + 1` over `Nat`). -/
def handleIframeErrorModel (ws : List SAU) (cur : Nat) (sources : List String)
    (p : String → Bool) : FailoverOutcome :=
  match nextChoice ws cur with
  | some i => { action := .switchRanked i, probed := [] }
  | none => emergencyLoop p (cur + 1) (sources.drop (cur + 1))

/-! ### Embed URL builder (`lib/api/video-api.ts`) -/
/-- JS `String.prototype.replace` with a global literal pattern: replace
every non-overlapping occurrence, scanning left to right.  The fuel is the
input length. -/
def replaceAllL (pat rep : List Char) : Nat → List Char → List Char
  | _, [] => []
  | 0, s => s
  | f + 1, c :: cs =>
    if pat ≠ [] ∧ pat.isPrefixOf (c :: cs) then
      rep ++ replaceAllL pat rep f (List.drop pat.length (c :: cs))
    else c :: replaceAllL pat rep f cs

/-- JS `s.replace(/pat/g, rep)` for a literal pattern. -/
def strReplaceAll (s pat rep : String) : String :=
  ⟨replaceAllL pat.data rep.data s.data.length s.data⟩

/-- The default value of `NEXT_PUBLIC_VIDEO_EMBED_1` (the environment is
modelled as unset, so the source's defaults apply). -/
def ENV_E1 : String :=
  "https://vidlink.pro/tv/${id}/${season}/${episode}?startAt=60&primaryColor=3a86ff&autoplay=true&nextbutton=true&sub_file=https://example.com/subtitles.vtt&sub_label=English"

/-- The default value of `NEXT_PUBLIC_VIDEO_EMBED_2`. -/
def ENV_E2 : String :=
  "https://vidlink.pro/movie/${id}?startAt=60&primaryColor=3a86ff&autoplay=true&nextbutton=true&sub_file=https://example.com/subtitles.vtt&sub_label=English"

/-- The global extra query parameters, empty by default. -/
def EXTRA_PARAMS : String := ""

/-- A configured provider entry. -/
structure Provider where
  name : String
  value : String
  priority : Nat
deriving DecidableEq, Repr

/-- `VIDEO_PROVIDERS` with the default environment: the five slots filtered
down to those with a truthy (non-empty) value. -/
def VIDEO_PROVIDERS : List Provider :=
  ([ { name := "Primary", value := ENV_E1, priority := 1 }
   , { name := "Secondary", value := ENV_E2, priority := 2 }
   , { name := "Tertiary", value := "", priority := 3 }
   , { name := "Backup", value := "", priority := 4 }
   , { name := "Base", value := "", priority := 5 } ] : List Provider).filter
    (fun p => p.value ≠ "")

/-- `isTemplate(url)`: the provider value contains a substitutable token. -/
def isTemplate (url : String) : Bool :=
  strContains url "${id}" || strContains url "${type}" ||
    strContains url "${season}" || strContains url "${episode}"

/-- `normalizeBase(url)`: drop one trailing slash. -/
def normalizeBase (url : String) : String :=
  if strEnds url "/" then strTake url (url.data.length - 1) else url

/-- `buildEmbedPath(mediaType, tmdbId, season?, episode?)`. -/
def buildEmbedPath (mediaType : String) (tmdbId : JsNum) (season episode : Option JsNum) :
    String :=
  if mediaType == "movie" then "/movie/" ++ numToString tmdbId
  else if optNumTruthy season && optNumTruthy episode then
    "/tv/" ++ numToString tmdbId ++ "/" ++ optNumToString season ++ "/" ++ optNumToString episode
  else "/tv/" ++ numToString tmdbId

/-- The `season ? String(season) : "1"` template substitution value. -/
def numOrOne (o : Option JsNum) : String :=
  match o with
  | some n => if numTruthy n then numToString n else "1"
  | none => "1"

/-- `appendParams(url, params)`. -/
def appendParams (url params : String) : String :=
  if params = "" then url
  else url ++ (if strContains url "?" then "&" else "?") ++ params

/-- `buildRawUrl(providerValue, mediaType, tmdbId, season?, episode?)`:
template substitution for template providers, canonical path append for
base providers. -/
def buildRawUrl (providerValue mediaType : String) (tmdbId : JsNum)
    (season episode : Option JsNum) : String :=
  if isTemplate providerValue then
    strReplaceAll
      (strReplaceAll
        (strReplaceAll (strReplaceAll providerValue "${id}" (numToString tmdbId))
          "${type}" mediaType)
        "${season}" (numOrOne season))
      "${episode}" (numOrOne episode)
  else normalizeBase providerValue ++ buildEmbedPath mediaType tmdbId season episode

/-- `buildEmbedUrl` from `video-api.ts`. -/
def buildEmbedUrl (providerValue mediaType : String) (tmdbId : JsNum)
    (season episode : Option JsNum) : String :=
  appendParams (buildRawUrl providerValue mediaType tmdbId season episode) EXTRA_PARAMS

/-- The `[...new Set(urls)]` idiom: remove duplicates keeping the first
occurrence of each element (Set iteration follows insertion order). -/
def dedupFirst : List String → List String
  | [] => []
  | x :: xs => x :: dedupFirst (xs.filter (fun y => y ≠ x))
termination_by l => l.length
decreasing_by
  simp only [List.length_cons]
  exact Nat.lt_succ_of_le (List.length_filter_le _ _)

/-- `getEmbedUrlCandidates` from `video-api.ts`: the per-provider embed URLs
in priority order, with duplicates removed. -/
def getEmbedUrlCandidates (mediaType : String) (tmdbId : JsNum)
    (season episode : Option JsNum) : List String :=
  dedupFirst (VIDEO_PROVIDERS.map
    (fun p => buildEmbedUrl p.value mediaType tmdbId season episode))

/-- The one-character string holding the double quote. -/
def dqS : String := ⟨[dq]⟩

/-! ### Structured HTML bodies for the rewriter

To state the allowlist gating of `rewriteAbsoluteUrlsToProxy` uniformly, a
body is assembled from three kinds of segments: `src`/`href` attributes
holding an absolute `http`/`https` URL in double or single quotes, quoted
string literals holding such a URL in any of the three quote characters,
and inert separator text.  The well-formedness conditions on each segment
exclude exactly the cross-segment regex effects of the two passes: a
separator may not contain quote characters or attribute-name letters
(otherwise text such as `src=` directly before a quoted literal would
itself be matched as an attribute by the first pass), and a URL body may
not contain quote characters or spaces (the character classes `[^q]` and
`[^'"` ]` of the two regexes would otherwise cut a match short). -/
/-- The attribute alternative `(src|href)` of the first pass. -/
inductive AttrName where
  | src : AttrName
  | href : AttrName
deriving DecidableEq, Repr

/-- The scheme alternative `https?` of both passes. -/
inductive SchemeKind where
  | http : SchemeKind
  | https : SchemeKind
deriving DecidableEq, Repr

/-- Characters of an attribute name. -/
def attrNameChars : AttrName → List Char
  | .src => ['s', 'r', 'c']
  | .href => ['h', 'r', 'e', 'f']

/-- Characters of a scheme, including `://`. -/
def schemeChars : SchemeKind → List Char
  | .http => ['h', 't', 't', 'p', ':', '/', '/']
  | .https => ['h', 't', 't', 'p', 's', ':', '/', '/']

/-- Characters that can occur in a matched attribute name (`src`/`href`,
case-insensitive). -/
def attrLetter (c : Char) : Bool := isS c || isR c || isC c || isH c || isE c || isF c

/-- Characters that can occur in a matched scheme before the colon
(`https?`, case-insensitive). -/
def schemeLetter (c : Char) : Bool := isH c || isT c || isP c || isS c

/-- One segment of a structured HTML body. -/
inductive HtmlItem where
  | text (t : List Char)
  | attr (a : AttrName) (q : Char) (k : SchemeKind) (rest : List Char)
  | lit (q : Char) (k : SchemeKind) (rest : List Char)
deriving DecidableEq, Repr

/-- The absolute URL of an `attr` or `lit` segment. -/
def urlOf (k : SchemeKind) (rest : List Char) : List Char := schemeChars k ++ rest

/-- The characters a segment contributes to the body. -/
def renderItem : HtmlItem → List Char
  | .text t => t
  | .attr a q k rest => attrNameChars a ++ '=' :: q :: urlOf k rest ++ [q]
  | .lit q k rest => q :: urlOf k rest ++ [q]

/-- The proxied form `/api/proxy?target=<encoded url>` of a URL. -/
def proxiedChars (url : List Char) : List Char :=
  "/api/proxy?target=".data ++ encodeURIComponentL url

/-- Effect of the first pass on a segment: an attribute whose URL passes
the allowlist is rewritten (with double quotes), everything else is kept. -/
def pass1Item : HtmlItem → List Char
  | .attr a q k rest =>
    if hostAllowedUrl ⟨urlOf k rest⟩ then
      attrNameChars a ++ '=' :: dq :: proxiedChars (urlOf k rest) ++ [dq]
    else renderItem (.attr a q k rest)
  | i => renderItem i

/-- Combined effect of both passes on a segment: attributes as in the
first pass, quoted literals whose URL passes the allowlist rewritten with
their own quote on both sides, everything else byte-for-byte unchanged. -/
def rewriteItem : HtmlItem → List Char
  | .attr a q k rest => pass1Item (.attr a q k rest)
  | .lit q k rest =>
    if hostAllowedUrl ⟨urlOf k rest⟩ then q :: proxiedChars (urlOf k rest) ++ [q]
    else renderItem (.lit q k rest)
  | .text t => t

/-- Well-formedness of a segment (see the section comment). -/
def wfItem : HtmlItem → Bool
  | .text t => !t.isEmpty && t.all (fun c => !attrLetter c && !isQuote2 c)
  | .attr _ q _ rest =>
    (q == dq || q == sq) && !rest.isEmpty && rest.all (fun c => !isQuote2 c && c != ' ')
  | .lit q _ rest =>
    isQuote2 q && !rest.isEmpty && rest.all (fun c => !isQuote2 c && c != ' ')

/-- A structured body rendered to its characters. -/
def renderAll (items : List HtmlItem) : List Char := items.flatMap renderItem

/-- The rewrite of a structured body, segment by segment. -/
def rewriteAll (items : List HtmlItem) : List Char := items.flatMap rewriteItem

/-- A mixed demonstration body: an allowlisted double-quoted `https` `src`
attribute, a non-allowlisted single-quoted `http` `href` attribute, an
allowlisted backtick string literal and a non-allowlisted double-quoted
string literal, between inert separators. -/
def demoRewriteItems : List HtmlItem :=
  [ .text "<img ".data
  , .attr .src dq .https "vidsrc.to/a.jpg".data
  , .text "><a ".data
  , .attr .href sq .http "evil.com/track.js".data
  , .text ">".data
  , .lit bq .https "2embed.cc/embed/42".data
  , .lit dq .http "adnet.example/pixel.gif".data
  ]

/-! ## Theorems -/

/-! ### Claim C5 -/
/-- C5: the allowlist check parses the hostname, strips a leading `www.`,
lower-cases it, and accepts exactly the hosts equal to an allowed entry or a
subdomain of one; malformed URLs are classified `false` rather than raising;
in particular `isAllowed("https://sub.vidsrc.to/x")` is true,
`isAllowed("https://evil.com/vidsrc.to")` is false and
`isAllowed("not a url")` is false. -/
theorem C5_allowlist_gate :
    (∀ u : String, getHostname u = none → hostAllowedUrl u = false) ∧
    (∀ u h, getHostname u = some h →
      (hostAllowedUrl u = true ↔ ∃ a ∈ ALLOWED_HOSTS, h = a ∨ strEnds h ("." ++ a) = true)) ∧
    hostAllowedUrl "https://sub.vidsrc.to/x" = true ∧
    hostAllowedUrl "https://evil.com/vidsrc.to" = false ∧
    hostAllowedUrl "not a url" = false ∧
    getHostname "https://WWW.VidSrc.TO/x" = some "vidsrc.to" := by
  refine ⟨?_, ?_, by decide, by decide, by decide, by decide⟩
  · intro u h
    simp [hostAllowedUrl, h, hostAllowedHost]
  · intro u h hu
    by_cases hh : h = ""
    · subst hh
      simp [hostAllowedUrl, hu, hostAllowedHost]
      decide
    · simp [hostAllowedUrl, hu, hostAllowedHost, hh, List.any_eq_true]

/-- Witness for C5: the two general conjuncts applied at concrete inputs. -/
theorem C5_allowlist_gate_witness :
    hostAllowedUrl "nonsense input" = false ∧
    (hostAllowedUrl "https://sub.vidsrc.to/x" = true ↔
      ∃ a ∈ ALLOWED_HOSTS, "sub.vidsrc.to" = a ∨ strEnds "sub.vidsrc.to" ("." ++ a) = true) :=
  ⟨C5_allowlist_gate.1 "nonsense input" (by decide),
   C5_allowlist_gate.2.1 "https://sub.vidsrc.to/x" "sub.vidsrc.to" (by decide)⟩

/-! ### Claim C6 -/
/-- C6: for every valid media request the generator yields the three native
candidates (VidLink, VidSrc, 2Embed, in that priority order) and appends
exactly one cross-type fallback candidate precisely when the request is a
movie with season and episode values, or a tv request; the candidate count
is a function of the request shape alone. -/
theorem C6_candidate_generator (mt : String) (id : JsNum) (s e : Option JsNum)
    (hmt : mt = "movie" ∨ mt = "tv")
    (hs : ∀ n, s = some n → ∃ i : Int, n = .val i ∧ 0 < i)
    (he : ∀ n, e = some n → ∃ i : Int, n = .val i ∧ 0 < i) :
    ((buildAllEmbedCandidates mt id s e).map (·.provider)).take 3 =
        ["VidLink", "VidSrc", "2Embed"] ∧
    (buildAllEmbedCandidates mt id s e).length =
        3 + (if (mt = "movie" ∧ s.isSome ∧ e.isSome) ∨ mt = "tv" then 1 else 0) ∧
    ((buildAllEmbedCandidates mt id s e).map (·.type)).countP
        (fun t => t == "tv-fallback" || t == "movie-fallback") =
        (if (mt = "movie" ∧ s.isSome ∧ e.isSome) ∨ mt = "tv" then 1 else 0) ∧
    ((mt = "movie" ∧ s.isSome ∧ e.isSome) →
      ((buildAllEmbedCandidates mt id s e).map (·.type)).getLast? = some "tv-fallback") ∧
    (mt = "tv" →
      ((buildAllEmbedCandidates mt id s e).map (·.type)).getLast? = some "movie-fallback") := by
  have struthy : s.isSome = true → optNumTruthy s = true := by
    intro h
    match s, h with
    | some n, _ =>
      obtain ⟨i, rfl, hi⟩ := hs n rfl
      simp [optNumTruthy, numTruthy]
      omega
  have etruthy : e.isSome = true → optNumTruthy e = true := by
    intro h
    match e, h with
    | some n, _ =>
      obtain ⟨i, rfl, hi⟩ := he n rfl
      simp [optNumTruthy, numTruthy]
      omega
  rcases hmt with rfl | rfl
  · rcases hsome : s with _ | n <;> rcases hesome : e with _ | m
    · simp [buildAllEmbedCandidates, mkCand, optNumTruthy]
    · simp [buildAllEmbedCandidates, mkCand, optNumTruthy]
    · subst hsome
      simp [buildAllEmbedCandidates, mkCand, struthy rfl, optNumTruthy]
    · subst hsome; subst hesome
      have h1 := struthy rfl
      have h2 := etruthy rfl
      simp [buildAllEmbedCandidates, mkCand, h1, h2]
  · simp [buildAllEmbedCandidates, mkCand]

/-- Witness for C6: a movie request with season and episode, giving three
natives plus one `tv-fallback`. -/
theorem C6_candidate_generator_witness :
    ((buildAllEmbedCandidates "movie" (.val 550) (some (.val 1)) (some (.val 2))).map
        (·.provider)).take 3 = ["VidLink", "VidSrc", "2Embed"] ∧
    (buildAllEmbedCandidates "movie" (.val 550) (some (.val 1)) (some (.val 2))).length = 4 := by
  have h := C6_candidate_generator "movie" (.val 550) (some (.val 1)) (some (.val 2))
    (Or.inl rfl)
    (by intro n hn; exact ⟨1, by simpa using hn.symm, by norm_num⟩)
    (by intro n hn; exact ⟨2, by simpa using hn.symm, by norm_num⟩)
  refine ⟨h.1, ?_⟩
  have := h.2.1
  simpa using this

/-- Behaviour of the retry loop on a prefix of transient failures: if
attempts `attempt, …, attempt+k-1` fail transiently then attempt
`attempt+k` decides the outcome, with backoff sleeps
`300·2^attempt, …, 300·2^(attempt+k-1)` in between. -/
theorem fwtLoop_spec {α : Type} (oracle : Nat → Except FetchErr α) (retries : Nat) :
    ∀ (k attempt fuel : Nat), k + 1 ≤ fuel →
      (∀ i, i < k → ∃ e, oracle (attempt + i) = .error e ∧ e.transient = true) →
      attempt + k ≤ retries →
      (∀ r, oracle (attempt + k) = .ok r →
        fwtLoop oracle retries attempt fuel =
          { result := .ok r
          , sleeps := (List.range k).map (fun i => 300 * 2 ^ (attempt + i))
          , attempts := k + 1 }) ∧
      (∀ e, oracle (attempt + k) = .error e → (attempt + k = retries ∨ e.transient = false) →
        fwtLoop oracle retries attempt fuel =
          { result := .error ("fetch failed (attempt " ++ toString (attempt + k + 1) ++ "): " ++ e.msg)
          , sleeps := (List.range k).map (fun i => 300 * 2 ^ (attempt + i))
          , attempts := k + 1 }) := by
  intro k
  induction k with
  | zero =>
    intro attempt fuel hfuel _ _
    obtain ⟨f, rfl⟩ : ∃ f, fuel = f + 1 := ⟨fuel - 1, by omega⟩
    constructor
    · intro r hr
      simp only [Nat.add_zero] at hr
      simp [fwtLoop, hr]
    · intro e he hterm
      simp only [Nat.add_zero] at he hterm
      have hcond : (attempt == retries || !e.transient) = true := by
        rcases hterm with h | h
        · simp [h]
        · simp [h]
      simp [fwtLoop, he, hcond]
  | succ k ih =>
    intro attempt fuel hfuel htrans hle
    obtain ⟨f, rfl⟩ : ∃ f, fuel = f + 1 := ⟨fuel - 1, by omega⟩
    obtain ⟨e0, he0, he0t⟩ := htrans 0 (Nat.succ_pos k)
    simp only [Nat.add_zero] at he0
    have hne : (attempt == retries || !e0.transient) = false := by
      simp [he0t]
      omega
    have ihspec := ih (attempt + 1) f (by omega)
      (fun i hi => by
        have := htrans (i + 1) (by omega)
        simpa [Nat.add_assoc, Nat.add_comm 1 i] using this)
      (by omega)
    have hshape : ∀ i, attempt + 1 + i = attempt + (i + 1) := by omega
    have hmap :
        (List.range (k + 1)).map (fun i => 300 * 2 ^ (attempt + i)) =
          300 * 2 ^ attempt :: (List.range k).map (fun i => 300 * 2 ^ (attempt + 1 + i)) := by
      rw [List.range_succ_eq_map]
      simp only [List.map_cons, List.map_map, Nat.add_zero]
      congr 1
      apply List.map_congr_left
      intro i _
      have h : attempt + Nat.succ i = attempt + 1 + i := by omega
      simp [Function.comp, h]
    constructor
    · intro r hr
      have := ihspec.1 r (by rw [hshape]; exact hr)
      simp [fwtLoop, he0, hne, this, hmap]
    · intro e he hterm
      have := ihspec.2 e (by rw [hshape]; exact he)
        (by rcases hterm with h | h
            · exact Or.inl (by omega)
            · exact Or.inr h)
      rw [hmap]
      have harith : attempt + 1 + k + 1 = attempt + (k + 1) + 1 := by omega
      simp [fwtLoop, he0, hne, this, harith]

/-! ### Claim C8 -/
/-- C8 (amended): the Reverse Proxy's upstream fetch wrapper
`fetchWithTimeoutAndRetry` retries only transient failures, sleeping
300ms, 600ms, 1200ms, … between attempts, and surfaces a non-transient or
final failure without further retries; the prober `fetchTest`, by contrast,
always performs exactly one attempt and never sleeps. -/
theorem C8_retry_discipline :
    (∀ (α : Type) (oracle : Nat → Except FetchErr α) (timeoutMs retries k : Nat) (r : α),
      k ≤ retries →
      (∀ i, i < k → ∃ e, oracle i = .error e ∧ e.transient = true) →
      oracle k = .ok r →
      fetchWithTimeoutAndRetry oracle timeoutMs retries =
        { result := .ok r
        , sleeps := (List.range k).map (fun i => 300 * 2 ^ i)
        , attempts := k + 1 }) ∧
    (∀ (α : Type) (oracle : Nat → Except FetchErr α) (timeoutMs retries k : Nat) (e : FetchErr),
      k ≤ retries →
      (∀ i, i < k → ∃ e', oracle i = .error e' ∧ e'.transient = true) →
      oracle k = .error e → (k = retries ∨ e.transient = false) →
      fetchWithTimeoutAndRetry oracle timeoutMs retries =
        { result := .error ("fetch failed (attempt " ++ toString (k + 1) ++ "): " ++ e.msg)
        , sleeps := (List.range k).map (fun i => 300 * 2 ^ i)
        , attempts := k + 1 }) ∧
    (∀ oracle : Unit → Except FetchErr UpstreamResp, (fetchTestModel oracle).attempts = 1) := by
  refine ⟨?_, ?_, ?_⟩
  · intro α oracle timeoutMs retries k r hk htrans hok
    have := (fwtLoop_spec oracle retries k 0 (retries + 1) (by omega)
      (fun i hi => by simpa using htrans i hi) (by omega)).1 r (by simpa using hok)
    simpa [fetchWithTimeoutAndRetry] using this
  · intro α oracle timeoutMs retries k e hk htrans herr hterm
    have := (fwtLoop_spec oracle retries k 0 (retries + 1) (by omega)
      (fun i hi => by simpa using htrans i hi) (by omega)).2 e (by simpa using herr)
      (by simpa using hterm)
    simpa [fetchWithTimeoutAndRetry] using this
  · intro oracle
    rcases h : oracle () with e | res <;> simp [fetchTestModel, h]
    by_cases hok : res.ok <;> simp [hok]

/-- Witness for C8: a transient failure on attempt 0 followed by success on
attempt 1 makes the wrapper succeed after one 300ms backoff, while the
prober makes its single attempt. -/
theorem C8_retry_discipline_witness :
    fetchWithTimeoutAndRetry
        (fun i => if i = 0 then .error { transient := true, msg := "ETIMEDOUT" } else .ok 7)
        10000 2 =
      { result := .ok 7, sleeps := [300], attempts := 2 } ∧
    (fetchTestModel (fun _ => .error { transient := true, msg := "ETIMEDOUT" })).attempts = 1 := by
  constructor
  · have := C8_retry_discipline.1 Nat
      (fun i => if i = 0 then .error { transient := true, msg := "ETIMEDOUT" } else .ok 7)
      10000 2 1 7 (by omega)
      (by intro i hi
          have : i = 0 := by omega
          subst this
          exact ⟨{ transient := true, msg := "ETIMEDOUT" }, rfl, rfl⟩)
      (by simp)
    simpa using this
  · exact C8_retry_discipline.2.2 (fun _ => .error { transient := true, msg := "ETIMEDOUT" })

/-- Counterexample for C8 as stated: on the very same always-transient
failure pattern where the retry discipline performs 3 attempts with
backoffs 300ms and 600ms, the prober `fetchTest` performs exactly one
attempt and no backoff — the prober does not follow the wrapper's
retry discipline. -/
theorem C8_prober_no_retry_cex :
    (fetchWithTimeoutAndRetry
        ((fun _ => .error { transient := true, msg := "ETIMEDOUT" }) :
          Nat → Except FetchErr Nat) 10000 2).attempts = 3 ∧
    (fetchWithTimeoutAndRetry
        ((fun _ => .error { transient := true, msg := "ETIMEDOUT" }) :
          Nat → Except FetchErr Nat) 10000 2).sleeps = [300, 600] ∧
    (fetchTestModel (fun _ => .error { transient := true, msg := "ETIMEDOUT" })).attempts = 1 ∧
    (1 : Nat) ≠ 3 := by
  refine ⟨by decide, by decide, by decide, by decide⟩

/-! ### Claim C1 -/
/-- C1: a proxy request whose target's hostname fails the allowlist gate is
answered with HTTP 403 and no upstream fetch is ever issued. -/
theorem C1_proxy_forbidden_zero_fetch (t h : String)
    (fetchUpstream : String → Except String UpstreamResp)
    (hparse : getHostname t = some h)
    (hforb : hostAllowedHost (some h) = false) :
    (handleProxyGET (some t) fetchUpstream).status = 403 ∧
    (handleProxyGET (some t) fetchUpstream).fetched = [] := by
  have ht : t ≠ "" := by
    intro he
    rw [he] at hparse
    simp [getHostname] at hparse
  constructor <;> simp [handleProxyGET, ht, hparse, hforb]

/-- Witness for C1: the gate rejects `https://evil.com/x` with 403 and an
empty fetch log even against an always-succeeding upstream. -/
theorem C1_proxy_forbidden_zero_fetch_witness :
    (handleProxyGET (some "https://evil.com/x")
        (fun _ => .ok { ok := true, status := 200, statusText := "OK"
                      , contentType := "text/html", bodyText := "" })).status = 403 ∧
    (handleProxyGET (some "https://evil.com/x")
        (fun _ => .ok { ok := true, status := 200, statusText := "OK"
                      , contentType := "text/html", bodyText := "" })).fetched = [] :=
  C1_proxy_forbidden_zero_fetch "https://evil.com/x" "evil.com" _ (by decide) (by decide)

/-! ### Characterization lemmas for the testing loops -/
/-- The POST loop's `primary` is the first candidate, in list order, whose
record passes the success test. -/
theorem probeLoop_primary (probe : String → Nat → FetchOut) (o : String) :
    ∀ cs : List Cand,
      (probeLoop probe o cs).1 =
        (cs.find? (fun c => resSuccess (processCandidate probe o c).1)).map (mkPrim probe o) := by
  intro cs
  induction cs with
  | nil => rfl
  | cons c cs ih =>
    by_cases h : resSuccess (processCandidate probe o c).1 = true
    · simp [probeLoop, h, List.find?_cons_of_pos _ h]
    · have h' : resSuccess (processCandidate probe o c).1 = false := by
        revert h
        cases resSuccess (processCandidate probe o c).1 <;> simp
      simp [probeLoop, h', List.find?_cons_of_neg, ih]

/-- The POST loop records one result per candidate, in order. -/
theorem probeLoop_results (probe : String → Nat → FetchOut) (o : String) :
    ∀ cs : List Cand,
      (probeLoop probe o cs).2.1 = cs.map (fun c => (processCandidate probe o c).1) := by
  intro cs
  induction cs with
  | nil => rfl
  | cons c cs ih => simp [probeLoop, ih]

/-- The POST loop's fetch log is the concatenation of the per-candidate
fetch logs, in candidate order. -/
theorem probeLoop_probed (probe : String → Nat → FetchOut) (o : String) :
    ∀ cs : List Cand,
      (probeLoop probe o cs).2.2 = cs.flatMap (fun c => (processCandidate probe o c).2) := by
  intro cs
  induction cs with
  | nil => rfl
  | cons c cs ih => simp [probeLoop, ih]

/-- The per-candidate fetch log: the direct URL always, plus the absolute
proxy URL exactly when the direct probe failed and the host passes the
allowlist gate. -/
theorem processCandidate_probes (probe : String → Nat → FetchOut) (o : String) (c : Cand) :
    (processCandidate probe o c).2 =
      if (probe c.originalUrl 5000).ok then [c.originalUrl]
      else if hostAllowedUrl c.originalUrl then [c.originalUrl, proxyAbsOf o c]
      else [c.originalUrl] := by
  by_cases h1 : (probe c.originalUrl 5000).ok <;>
    by_cases h2 : hostAllowedUrl c.originalUrl <;>
      simp [processCandidate, h1, h2]

/-- Every candidate's original URL appears in its own fetch log. -/
theorem processCandidate_probes_orig (probe : String → Nat → FetchOut) (o : String) (c : Cand) :
    c.originalUrl ∈ (processCandidate probe o c).2 := by
  rw [processCandidate_probes]
  split_ifs <;> simp

/-- A candidate record under an always-failing probe never passes the
success test. -/
theorem processCandidate_fail (probe : String → Nat → FetchOut) (o : String) (c : Cand)
    (hfail : ∀ u t, (probe u t).ok = false) :
    resSuccess (processCandidate probe o c).1 = false := by
  by_cases h2 : hostAllowedUrl c.originalUrl <;>
    simp [processCandidate, hfail, h2, resSuccess]

/-- The GET loop's fetch log is the concatenation of the per-candidate
fetch logs, in candidate order. -/
theorem getLoop_probed (probe : String → Nat → FetchOut) (o : String) :
    ∀ cs : List Cand,
      (getLoop probe o cs).2.2 = cs.flatMap (fun c => (getProcessCandidate probe o c).2) := by
  intro cs
  induction cs with
  | nil => rfl
  | cons c cs ih => simp [getLoop, ih]

/-! ### Claim C2 -/
/-- C2 (amended): in the POST selection loop the chosen candidate
(`workingUrl`) is the first candidate in priority order whose direct or
proxied probe succeeded; the proxied URL is fetched exactly when the direct
probe failed and the host passes the allowlist gate; probing continues over
every candidate, the fetch log being the ordered concatenation of every
candidate's probes, and `totalTested` equals the full candidate count.  The
GET variant instead probes only the first `min(3, count)` candidates. -/
theorem C2_selection_policy :
    (∀ (body : PostBody) (probe : String → Nat → FetchOut) (reqOrigin : String),
      (body.mediaType = some "movie" ∨ body.mediaType = some "tv") →
      numPos body.tmdbId = true →
      (body.mediaType = some "tv" → seasonOk body.season = true ∧ seasonOk body.episode = true) →
      body.testUrls = true →
      (handleCheckEmbedPOST body probe reqOrigin).status = 200 ∧
      (handleCheckEmbedPOST body probe reqOrigin).totalTested = (postCandidates body).length ∧
      (handleCheckEmbedPOST body probe reqOrigin).workingUrl =
        ((postCandidates body).find?
          (fun c => resSuccess (processCandidate probe reqOrigin c).1)).map
          (mkPrim probe reqOrigin) ∧
      (handleCheckEmbedPOST body probe reqOrigin).probed =
        (postCandidates body).flatMap (fun c => (processCandidate probe reqOrigin c).2) ∧
      (∀ c ∈ postCandidates body,
        c.originalUrl ∈ (handleCheckEmbedPOST body probe reqOrigin).probed) ∧
      (∀ c : Cand, (processCandidate probe reqOrigin c).2 =
        if (probe c.originalUrl 5000).ok then [c.originalUrl]
        else if hostAllowedUrl c.originalUrl then [c.originalUrl, proxyAbsOf reqOrigin c]
        else [c.originalUrl])) ∧
    (∀ (mtS : String) (rid rs re : Option String) (probe : String → Nat → FetchOut)
        (o : String),
      (mtS = "movie" ∨ mtS = "tv") → strFalsy rid = false →
      (handleCheckEmbedGET (some mtS) rid rs re none probe o).probed =
        ((getCandidates mtS rid rs re).take 3).flatMap
          (fun c => (getProcessCandidate probe o c).2)) := by
  constructor
  · intro body probe reqOrigin hmt hid hse htest
    have hguard1 : ¬(body.mediaType ≠ some "movie" ∧ body.mediaType ≠ some "tv") := by
      rcases hmt with h | h <;> simp [h]
    have hguard3 : ¬(body.mediaType = some "tv" ∧
        (seasonOk body.season = false ∨ seasonOk body.episode = false)) := by
      rintro ⟨htv, hbad⟩
      obtain ⟨h1, h2⟩ := hse htv
      rcases hbad with h | h
      · rw [h1] at h; cases h
      · rw [h2] at h; cases h
    have hresp : handleCheckEmbedPOST body probe reqOrigin =
        { status := 200
        , workingUrl := (probeLoop probe reqOrigin (postCandidates body)).1
        , totalTested := (postCandidates body).length
        , workingCount := (probeLoop probe reqOrigin (postCandidates body)).2.1.countP resSuccess
        , allUrls := (probeLoop probe reqOrigin (postCandidates body)).2.1
        , probed := (probeLoop probe reqOrigin (postCandidates body)).2.2 } := by
      simp [handleCheckEmbedPOST, hguard1, hid, hguard3, htest]
    refine ⟨by rw [hresp], by rw [hresp], ?_, ?_, ?_, ?_⟩
    · rw [hresp]
      exact probeLoop_primary probe reqOrigin (postCandidates body)
    · rw [hresp]
      exact probeLoop_probed probe reqOrigin (postCandidates body)
    · intro c hc
      rw [hresp]
      simp only [probeLoop_probed, List.mem_flatMap]
      exact ⟨c, hc, processCandidate_probes_orig probe reqOrigin c⟩
    · intro c
      exact processCandidate_probes probe reqOrigin c
  · intro mtS rid rs re probe o hmt hrid
    have hne : mtS ≠ "" := by
      rcases hmt with h | h <;> simp [h]
    have hfal : strFalsy (some mtS) = false := by
      simp [strFalsy, hne]
    have hguard2 : ¬(¬mtS = "movie" ∧ ¬mtS = "tv") := by
      rcases hmt with h | h <;> simp [h]
    simp [handleCheckEmbedGET, hfal, hrid, hguard2, getLoop_probed]

/-- Witness for C2: a movie request against an always-failing probe; the
response's `totalTested` is the full candidate count and the chosen
candidate is the first success (here none). -/
theorem C2_selection_policy_witness :
    (handleCheckEmbedPOST
        { mediaType := some "movie", tmdbId := .val 550, season := none, episode := none
        , testUrls := true }
        (fun _ _ => { ok := false }) "http://localhost:3000").totalTested =
      (postCandidates
        { mediaType := some "movie", tmdbId := .val 550, season := none, episode := none
        , testUrls := true }).length ∧
    (handleCheckEmbedGET (some "movie") (some "550") none none none
        (fun _ _ => { ok := false }) "http://localhost:3000").probed =
      ((getCandidates "movie" (some "550") none none).take 3).flatMap
        (fun c => (getProcessCandidate (fun _ _ => { ok := false })
          "http://localhost:3000" c).2) :=
  ⟨(C2_selection_policy.1
      { mediaType := some "movie", tmdbId := .val 550, season := none, episode := none
      , testUrls := true }
      (fun _ _ => { ok := false }) "http://localhost:3000"
      (Or.inl rfl) (by decide) (fun h => absurd h (by decide)) rfl).2.1,
   C2_selection_policy.2 "movie" (some "550") none none
      (fun _ _ => { ok := false }) "http://localhost:3000" (Or.inl rfl) (by decide)⟩

/-- Counterexample for C2 as stated: for a tv request the GET variant builds
4 candidates but the fallback candidate's URL is never probed, so probing
does not continue over every remaining candidate and the probed count is
not the full candidate count. -/
theorem C2_get_skips_candidates_cex :
    (getCandidates "tv" (some "550") (some "1") (some "2")).length = 4 ∧
    "https://vidsrc.to/embed/movie/550" ∈
      (getCandidates "tv" (some "550") (some "1") (some "2")).map (·.originalUrl) ∧
    "https://vidsrc.to/embed/movie/550" ∉
      (handleCheckEmbedGET (some "tv") (some "550") (some "1") (some "2") none failProbe
        "http://localhost:3000").probed := by
  refine ⟨by decide, by decide, by decide⟩

/-! ### Claim C3 -/
/-- C3 (amended): when every probe fails with `testUrls = true`,
`workingCount` is 0 but `workingUrl` is null — the handler does not degrade
to the first candidate; only the untested mode (`testUrls = false`) chooses
candidate[0]. -/
theorem C3_all_fail_no_chosen :
    (∀ (body : PostBody) (probe : String → Nat → FetchOut) (reqOrigin : String),
      (body.mediaType = some "movie" ∨ body.mediaType = some "tv") →
      numPos body.tmdbId = true →
      (body.mediaType = some "tv" → seasonOk body.season = true ∧ seasonOk body.episode = true) →
      body.testUrls = true →
      (∀ u t, (probe u t).ok = false) →
      (handleCheckEmbedPOST body probe reqOrigin).workingUrl = none ∧
      (handleCheckEmbedPOST body probe reqOrigin).workingCount = 0) ∧
    (∀ (body : PostBody) (probe : String → Nat → FetchOut) (reqOrigin : String),
      (body.mediaType = some "movie" ∨ body.mediaType = some "tv") →
      numPos body.tmdbId = true →
      (body.mediaType = some "tv" → seasonOk body.season = true ∧ seasonOk body.episode = true) →
      body.testUrls = false →
      (handleCheckEmbedPOST body probe reqOrigin).workingUrl =
        (postCandidates body).head?.map untestedPrim) := by
  constructor
  · intro body probe reqOrigin hmt hid hse htest hfail
    have hguard1 : ¬(body.mediaType ≠ some "movie" ∧ body.mediaType ≠ some "tv") := by
      rcases hmt with h | h <;> simp [h]
    have hguard3 : ¬(body.mediaType = some "tv" ∧
        (seasonOk body.season = false ∨ seasonOk body.episode = false)) := by
      rintro ⟨htv, hbad⟩
      obtain ⟨h1, h2⟩ := hse htv
      rcases hbad with h | h
      · rw [h1] at h; cases h
      · rw [h2] at h; cases h
    have hresp : handleCheckEmbedPOST body probe reqOrigin =
        { status := 200
        , workingUrl := (probeLoop probe reqOrigin (postCandidates body)).1
        , totalTested := (postCandidates body).length
        , workingCount := (probeLoop probe reqOrigin (postCandidates body)).2.1.countP resSuccess
        , allUrls := (probeLoop probe reqOrigin (postCandidates body)).2.1
        , probed := (probeLoop probe reqOrigin (postCandidates body)).2.2 } := by
      simp [handleCheckEmbedPOST, hguard1, hid, hguard3, htest]
    constructor
    · rw [hresp]
      show (probeLoop probe reqOrigin (postCandidates body)).1 = none
      rw [probeLoop_primary]
      rw [List.find?_eq_none.2 (fun c _ => by
        simp [processCandidate_fail probe reqOrigin c hfail])]
      rfl
    · rw [hresp]
      show (probeLoop probe reqOrigin (postCandidates body)).2.1.countP resSuccess = 0
      rw [probeLoop_results]
      rw [List.countP_eq_zero]
      intro r hr
      obtain ⟨c, hc, rfl⟩ := List.mem_map.1 hr
      simp [processCandidate_fail probe reqOrigin c hfail]
  · intro body probe reqOrigin hmt hid hse htest
    have hguard1 : ¬(body.mediaType ≠ some "movie" ∧ body.mediaType ≠ some "tv") := by
      rcases hmt with h | h <;> simp [h]
    have hguard3 : ¬(body.mediaType = some "tv" ∧
        (seasonOk body.season = false ∨ seasonOk body.episode = false)) := by
      rintro ⟨htv, hbad⟩
      obtain ⟨h1, h2⟩ := hse htv
      rcases hbad with h | h
      · rw [h1] at h; cases h
      · rw [h2] at h; cases h
    simp [handleCheckEmbedPOST, hguard1, hid, hguard3, htest]

/-- Witness for C3: a tv request where every probe fails has no chosen
candidate and a zero working count. -/
theorem C3_all_fail_no_chosen_witness :
    (handleCheckEmbedPOST
        { mediaType := some "tv", tmdbId := .val 66732, season := some (.val 4)
        , episode := some (.val 1), testUrls := true }
        failProbe "http://localhost:3000").workingUrl = none ∧
    (handleCheckEmbedPOST
        { mediaType := some "tv", tmdbId := .val 66732, season := some (.val 4)
        , episode := some (.val 1), testUrls := true }
        failProbe "http://localhost:3000").workingCount = 0 :=
  C3_all_fail_no_chosen.1
    { mediaType := some "tv", tmdbId := .val 66732, season := some (.val 4)
    , episode := some (.val 1), testUrls := true }
    failProbe "http://localhost:3000"
    (Or.inr rfl) (by decide) (fun _ => ⟨by decide, by decide⟩) rfl
    (fun _ _ => rfl)

/-- Counterexample for C3 as stated: with all probes failing on a movie
request with three candidates, the selection result's chosen candidate
(`workingUrl`) is null, not candidate[0]. -/
theorem C3_no_degraded_chosen_cex :
    (handleCheckEmbedPOST
        { mediaType := some "movie", tmdbId := .val 550, season := none, episode := none
        , testUrls := true } failProbe "http://localhost:3000").workingUrl = none ∧
    (handleCheckEmbedPOST
        { mediaType := some "movie", tmdbId := .val 550, season := none, episode := none
        , testUrls := true } failProbe "http://localhost:3000").workingCount = 0 ∧
    (postCandidates
        { mediaType := some "movie", tmdbId := .val 550, season := none, episode := none
        , testUrls := true }).length = 3 := by
  refine ⟨by decide, by decide, by decide⟩

/-! ### Claim C7 -/
/-- C7 (amended): the POST handler rejects every malformed request (bad
`mediaType`, non-positive or non-numeric id, tv request without positive
season and episode) with HTTP 400 and no network access; the GET handler
does this only for a missing/empty `mediaType` or `tmdbId` or an invalid
`mediaType` value — a non-numeric id is accepted and probed. -/
theorem C7_malformed_request_400 :
    (∀ (body : PostBody) (probe : String → Nat → FetchOut) (reqOrigin : String),
      ((body.mediaType ≠ some "movie" ∧ body.mediaType ≠ some "tv") ∨
        numPos body.tmdbId = false ∨
        (body.mediaType = some "tv" ∧
          (seasonOk body.season = false ∨ seasonOk body.episode = false))) →
      (handleCheckEmbedPOST body probe reqOrigin).status = 400 ∧
      (handleCheckEmbedPOST body probe reqOrigin).probed = []) ∧
    (∀ (mediaType tmdbIdRaw seasonRaw episodeRaw testRaw : Option String)
        (probe : String → Nat → FetchOut) (o : String),
      ((strFalsy mediaType || strFalsy tmdbIdRaw) = true ∨
        (mediaType ≠ some "movie" ∧ mediaType ≠ some "tv")) →
      (handleCheckEmbedGET mediaType tmdbIdRaw seasonRaw episodeRaw testRaw probe o).status =
        400 ∧
      (handleCheckEmbedGET mediaType tmdbIdRaw seasonRaw episodeRaw testRaw probe o).probed =
        []) := by
  constructor
  · intro body probe reqOrigin hbad
    by_cases h1 : body.mediaType ≠ some "movie" ∧ body.mediaType ≠ some "tv"
    · simp [handleCheckEmbedPOST, h1, postErr400]
    · by_cases h2 : numPos body.tmdbId = true
      · have h3 : body.mediaType = some "tv" ∧
            (!seasonOk body.season || !seasonOk body.episode) = true := by
          rcases hbad with hb | hb | hb
          · exact absurd hb h1
          · rw [h2] at hb; cases hb
          · exact ⟨hb.1, by rcases hb.2 with h | h <;> simp [h]⟩
        simp [handleCheckEmbedPOST, h1, h2, h3, postErr400]
      · have h2' : numPos body.tmdbId = false := by
          revert h2
          cases numPos body.tmdbId <;> simp
        simp [handleCheckEmbedPOST, h1, h2', postErr400]
  · intro mediaType tmdbIdRaw seasonRaw episodeRaw testRaw probe o hbad
    rcases hbad with hb | hb
    · simp [handleCheckEmbedGET, hb, getErr400]
    · by_cases hf : (strFalsy mediaType || strFalsy tmdbIdRaw) = true
      · simp [handleCheckEmbedGET, hf, getErr400]
      · have hf' : (strFalsy mediaType || strFalsy tmdbIdRaw) = false := by
          revert hf
          cases strFalsy mediaType <;> cases strFalsy tmdbIdRaw <;> simp
        simp [handleCheckEmbedGET, hf', hb, getErr400]

/-- Witness for C7: a POST with a non-numeric id is answered 400 with no
probes. -/
theorem C7_malformed_request_400_witness :
    (handleCheckEmbedPOST
        { mediaType := some "movie", tmdbId := .nan, season := none, episode := none
        , testUrls := true } failProbe "http://localhost:3000").status = 400 ∧
    (handleCheckEmbedPOST
        { mediaType := some "movie", tmdbId := .nan, season := none, episode := none
        , testUrls := true } failProbe "http://localhost:3000").probed = [] :=
  C7_malformed_request_400.1
    { mediaType := some "movie", tmdbId := .nan, season := none, episode := none
    , testUrls := true } failProbe "http://localhost:3000" (Or.inr (Or.inl rfl))

/-- Counterexample for C7 as stated: the GET resolution handler accepts the
non-numeric id `"abc"` (which converts to `NaN`), answers 200 and issues six
network probes before responding, instead of the claimed 400 with no
network access. -/
theorem C7_get_nan_id_cex :
    numPos (jsNumber "abc") = false ∧
    (handleCheckEmbedGET (some "movie") (some "abc") none none none failProbe
        "http://localhost:3000").status = 200 ∧
    (handleCheckEmbedGET (some "movie") (some "abc") none none none failProbe
        "http://localhost:3000").probed.length = 6 := by
  refine ⟨by decide, by decide, by decide⟩

/-- Auxiliary: `find?` distributes over append. -/
theorem find?_append_aux {α : Type} (p : α → Bool) :
    ∀ l1 l2 : List α, (l1 ++ l2).find? p = ((l1.find? p).orElse (fun _ => l2.find? p)) := by
  intro l1 l2
  induction l1 with
  | nil => rfl
  | cons a l ih =>
    by_cases h : p a = true
    · simp [List.find?_cons_of_pos _ h]
    · have h' : p a = false := by
        revert h
        cases p a <;> simp
      simp [List.find?_cons_of_neg, h', ih]

/-- The first index in `range n` greater than `cur` is `cur + 1`, when it is
in range. -/
theorem range_find_gt (cur : Nat) :
    ∀ n : Nat, (List.range n).find? (fun idx => decide (cur < idx)) =
      if cur + 1 < n then some (cur + 1) else none := by
  intro n
  induction n with
  | zero => simp
  | succ n ih =>
    rw [List.range_succ, find?_append_aux, ih]
    by_cases h1 : cur + 1 < n
    · have : cur + 1 < n + 1 := by omega
      simp [h1, this]
    · by_cases h2 : cur < n
      · have hn : n = cur + 1 := by omega
        have : cur + 1 < n + 1 := by omega
        simp [h1, h2, this, hn]
      · have : ¬(cur + 1 < n + 1) := by omega
        simp [h1, h2, this]

/-! ### Claim C9 -/
/-- C9 (amended): on a render-time failure the controller first switches to
the entry at the next index of the retained ranked list regardless of its
reachability flag; when no later index exists, it wraps to the first other
entry that is flagged reachable (already-tried entries are not excluded);
any such ranked advance issues no network probe; only when neither rule
applies does it fall back to client-side probing of the traditional source
list, and it shows the terminal failure only when all of those probes
fail. -/
theorem C9_failover_policy :
    (∀ (ws : List SAU) (cur : Nat) (sources : List String) (p : String → Bool),
      cur + 1 < ws.length →
      handleIframeErrorModel ws cur sources p =
        { action := .switchRanked (cur + 1), probed := [] }) ∧
    (∀ (ws : List SAU) (cur : Nat) (sources : List String) (p : String → Bool) (i : Nat),
      nextChoice ws cur = some i →
      handleIframeErrorModel ws cur sources p =
        { action := .switchRanked i, probed := [] }) ∧
    (∀ (ws : List SAU) (cur : Nat), ws.length ≤ cur + 1 →
      nextChoice ws cur = wrapIndex ws cur) ∧
    (∀ (sources : List String) (p : String → Bool), (∀ u ∈ sources, p u = false) →
      ∀ k : Nat, emergencyLoop p k sources = { action := .failed, probed := sources }) ∧
    (∀ (ws : List SAU) (cur : Nat) (sources : List String) (p : String → Bool),
      nextChoice ws cur = none →
      handleIframeErrorModel ws cur sources p =
        emergencyLoop p (cur + 1) (sources.drop (cur + 1))) := by
  refine ⟨?_, ?_, ?_, ?_, ?_⟩
  · intro ws cur sources p h
    have hnext : nextChoice ws cur = some (cur + 1) := by
      simp [nextChoice, nextRankedIndex, range_find_gt, h]
    simp [handleIframeErrorModel, hnext]
  · intro ws cur sources p i h
    simp [handleIframeErrorModel, h]
  · intro ws cur h
    have : ¬(cur + 1 < ws.length) := by omega
    simp [nextChoice, nextRankedIndex, range_find_gt, this]
  · intro sources p hfail k
    induction sources generalizing k with
    | nil => rfl
    | cons u us ih =>
      have hu : p u = false := hfail u (by simp)
      have ihk := ih (fun v hv => hfail v (by simp [hv])) (k + 1)
      simp [emergencyLoop, hu, ihk]
  · intro ws cur sources p h
    simp [handleIframeErrorModel, h]

/-- Witness for C9: with a two-entry ranked list and the first entry
current, the controller switches to index 1 with no probes; and an
all-failing emergency pass over two sources fails terminally having probed
both. -/
theorem C9_failover_policy_witness :
    handleIframeErrorModel
        [ { provider := "A", originalUrl := "https://a/1", proxied := some "https://a/1"
          , usedProxy := false, tested := true
          , direct := some { ok := true, status := some 200 }, proxy := none }
        , { provider := "B", originalUrl := "https://b/2", proxied := some "https://b/2"
          , usedProxy := false, tested := true, direct := some { ok := false }
          , proxy := none } ]
        0 [] (fun _ => false) =
      { action := .switchRanked 1, probed := [] } ∧
    emergencyLoop (fun _ => false) 1 ["https://s/1", "https://s/2"] =
      { action := .failed, probed := ["https://s/1", "https://s/2"] } :=
  ⟨C9_failover_policy.1
      [ { provider := "A", originalUrl := "https://a/1", proxied := some "https://a/1"
        , usedProxy := false, tested := true
        , direct := some { ok := true, status := some 200 }, proxy := none }
      , { provider := "B", originalUrl := "https://b/2", proxied := some "https://b/2"
        , usedProxy := false, tested := true, direct := some { ok := false }
        , proxy := none } ]
      0 [] (fun _ => false) (by decide),
   C9_failover_policy.2.2.2.1 ["https://s/1", "https://s/2"] (fun _ => false)
      (fun u _ => rfl) 1⟩

/-- Counterexample for C9 as stated: with a ranked list of three entries all
flagged reachable, failures cycle 1 → 2 → 0 → 1 → … for ever; the
controller re-tries already-tried entries and never reaches the terminal
Failed state, and after the last index fails it advances to index 0 rather
than stopping. -/
theorem C9_failover_cycles_cex :
    (nextChoice
        [ { provider := "A", originalUrl := "https://a/1", proxied := some "https://a/1"
          , usedProxy := false, tested := true
          , direct := some { ok := true, status := some 200 }, proxy := none }
        , { provider := "B", originalUrl := "https://b/2", proxied := some "https://b/2"
          , usedProxy := false, tested := true
          , direct := some { ok := true, status := some 200 }, proxy := none }
        , { provider := "C", originalUrl := "https://c/3", proxied := some "https://c/3"
          , usedProxy := false, tested := true
          , direct := some { ok := true, status := some 200 }, proxy := none } ]
        0 = some 1) ∧
    (nextChoice
        [ { provider := "A", originalUrl := "https://a/1", proxied := some "https://a/1"
          , usedProxy := false, tested := true
          , direct := some { ok := true, status := some 200 }, proxy := none }
        , { provider := "B", originalUrl := "https://b/2", proxied := some "https://b/2"
          , usedProxy := false, tested := true
          , direct := some { ok := true, status := some 200 }, proxy := none }
        , { provider := "C", originalUrl := "https://c/3", proxied := some "https://c/3"
          , usedProxy := false, tested := true
          , direct := some { ok := true, status := some 200 }, proxy := none } ]
        1 = some 2) ∧
    (nextChoice
        [ { provider := "A", originalUrl := "https://a/1", proxied := some "https://a/1"
          , usedProxy := false, tested := true
          , direct := some { ok := true, status := some 200 }, proxy := none }
        , { provider := "B", originalUrl := "https://b/2", proxied := some "https://b/2"
          , usedProxy := false, tested := true
          , direct := some { ok := true, status := some 200 }, proxy := none }
        , { provider := "C", originalUrl := "https://c/3", proxied := some "https://c/3"
          , usedProxy := false, tested := true
          , direct := some { ok := true, status := some 200 }, proxy := none } ]
        2 = some 0) ∧
    some 0 ≠ (none : Option Nat) := by
  refine ⟨by decide, by decide, by decide, by decide⟩

/-- Membership is preserved by first-occurrence deduplication. -/
theorem mem_dedupFirst : ∀ (l : List String) (y : String), y ∈ dedupFirst l ↔ y ∈ l := by
  intro l
  induction l using dedupFirst.induct with
  | case1 => simp [dedupFirst]
  | case2 x xs ih =>
    intro y
    by_cases hy : y = x
    · subst hy
      simp [dedupFirst]
    · rw [dedupFirst, List.mem_cons, ih y, List.mem_filter]
      simp [hy]

/-- First-occurrence deduplication yields pairwise-distinct elements. -/
theorem nodup_dedupFirst : ∀ l : List String, (dedupFirst l).Nodup := by
  intro l
  induction l using dedupFirst.induct with
  | case1 => simp [dedupFirst]
  | case2 x xs ih =>
    rw [dedupFirst]
    refine List.nodup_cons.2 ⟨?_, ih⟩
    intro hx
    have := (mem_dedupFirst _ x).1 hx
    simp [List.mem_filter] at this

/-- First-occurrence deduplication yields a subsequence of the input. -/
theorem dedupFirst_sublist : ∀ l : List String, List.Sublist (dedupFirst l) l := by
  intro l
  induction l using dedupFirst.induct with
  | case1 => simp [dedupFirst]
  | case2 x xs ih =>
    rw [dedupFirst]
    exact List.Sublist.cons₂ x (ih.trans (List.filter_sublist xs))

/-! ### Claim C10 -/
/-- C10: for every media request, `getEmbedUrlCandidates` returns the
per-provider embed URL list with duplicates removed preserving
first-occurrence order: the result is pairwise distinct, is a subsequence
of the priority-ordered per-provider URL list, and contains exactly the
URLs that list contains. -/
theorem C10_candidates_dedup (mediaType : String) (tmdbId : JsNum)
    (season episode : Option JsNum) :
    (getEmbedUrlCandidates mediaType tmdbId season episode).Nodup ∧
    List.Sublist (getEmbedUrlCandidates mediaType tmdbId season episode)
      (VIDEO_PROVIDERS.map (fun p => buildEmbedUrl p.value mediaType tmdbId season episode)) ∧
    (∀ u : String, u ∈ getEmbedUrlCandidates mediaType tmdbId season episode ↔
      u ∈ VIDEO_PROVIDERS.map (fun p => buildEmbedUrl p.value mediaType tmdbId season episode)) :=
  ⟨nodup_dedupFirst _, dedupFirst_sublist _, fun u => mem_dedupFirst _ u⟩

/-! ### Structural lemmas about the rewrite scanners -/
/-- `takeWhile` passes over a prefix all of whose elements satisfy the
predicate. -/
theorem takeWhile_append_of_all {α : Type} (p : α → Bool) :
    ∀ xs ys : List α, (∀ x ∈ xs, p x = true) →
      (xs ++ ys).takeWhile p = xs ++ ys.takeWhile p := by
  intro xs ys h
  induction xs with
  | nil => simp
  | cons a l ih =>
    have ha : p a = true := h a (by simp)
    simp [List.takeWhile_cons, ha, ih (fun x hx => h x (by simp [hx]))]

/-- `dropWhile` drops a prefix all of whose elements satisfy the
predicate. -/
theorem dropWhile_append_of_all {α : Type} (p : α → Bool) :
    ∀ xs ys : List α, (∀ x ∈ xs, p x = true) →
      (xs ++ ys).dropWhile p = ys.dropWhile p := by
  intro xs ys h
  induction xs with
  | nil => simp
  | cons a l ih =>
    have ha : p a = true := h a (by simp)
    simp [List.dropWhile_cons, ha, ih (fun x hx => h x (by simp [hx]))]

/-- A successful `matchLits` splits its input into the consumed prefix and
the remainder. -/
theorem matchLits_decomp :
    ∀ (ps : List (Char → Bool)) (s t r : List Char),
      matchLits ps s = some (t, r) → s = t ++ r := by
  intro ps
  induction ps with
  | nil =>
    intro s t r h
    simp only [matchLits, Option.some.injEq, Prod.mk.injEq] at h
    obtain ⟨rfl, rfl⟩ := h
    simp
  | cons p ps ih =>
    intro s t r h
    cases s with
    | nil => simp [matchLits] at h
    | cons c cs =>
      simp only [matchLits] at h
      by_cases hpc : p c = true
      · rw [if_pos hpc] at h
        cases hin : matchLits ps cs with
        | none => rw [hin] at h; cases h
        | some tr =>
          obtain ⟨t', r'⟩ := tr
          rw [hin] at h
          simp only [Option.some.injEq, Prod.mk.injEq] at h
          obtain ⟨rfl, rfl⟩ := h
          simp [ih cs t' r' hin]
      · rw [if_neg hpc] at h
        cases h

/-- A successful `matchSchemeTail` consumed exactly `://`. -/
theorem matchSchemeTail_spec :
    ∀ (t4 s t r : List Char), matchSchemeTail t4 s = some (t, r) →
      s = ':' :: '/' :: '/' :: r ∧ t = t4 ++ [':', '/', '/'] := by
  intro t4 s t r h
  match s with
  | [] => simp [matchSchemeTail] at h
  | [c1] => simp [matchSchemeTail] at h
  | [c1, c2] => simp [matchSchemeTail] at h
  | c1 :: c2 :: c3 :: rr =>
    simp only [matchSchemeTail] at h
    by_cases hg : c1 = ':' ∧ c2 = '/' ∧ c3 = '/'
    · obtain ⟨rfl, rfl, rfl⟩ := hg
      rw [if_pos ⟨rfl, rfl, rfl⟩] at h
      simp only [Option.some.injEq, Prod.mk.injEq] at h
      obtain ⟨rfl, rfl⟩ := h
      simp
    · rw [if_neg hg] at h
      cases h

/-- A successful `matchScheme` splits its input and its consumed prefix
contains the literal colon. -/
theorem matchScheme_spec (s t r : List Char) (h : matchScheme s = some (t, r)) :
    s = t ++ r ∧ ':' ∈ t := by
  unfold matchScheme at h
  split at h
  · cases h
  · rename_i t4 r4 h4
    have hs4 : s = t4 ++ r4 := matchLits_decomp _ _ _ _ h4
    subst hs4
    split at h
    · split at h
      · obtain ⟨hseq, hteq⟩ := matchSchemeTail_spec _ _ _ _ h
        subst hteq
        constructor
        · simp [hseq]
        · simp
      · obtain ⟨hseq, hteq⟩ := matchSchemeTail_spec _ _ _ _ h
        subst hteq
        constructor
        · simp [hseq]
        · simp
    · obtain ⟨hseq, _⟩ := matchSchemeTail_spec _ _ _ _ h
      cases hseq

/-- A successful `tryAttr` splits its input. -/
theorem tryAttr_decomp (s t r : List Char) (h : tryAttr s = some (t, r)) : s = t ++ r := by
  unfold tryAttr at h
  cases h1 : matchLits [isS, isR, isC] s with
  | some tr =>
    obtain ⟨t', r'⟩ := tr
    rw [h1] at h
    simp only [Option.some.injEq, Prod.mk.injEq] at h
    obtain ⟨rfl, rfl⟩ := h
    exact matchLits_decomp _ _ _ _ h1
  | none =>
    rw [h1] at h
    exact matchLits_decomp _ _ _ _ h

/-- A successful `tryQuoted` splits its input into the URL, the closing
quote and the remainder, with the URL containing the scheme's colon. -/
theorem tryQuoted_spec (q : Char) (r2 url r5 : List Char)
    (h : tryQuoted q r2 = some (url, r5)) :
    r2 = url ++ q :: r5 ∧ ':' ∈ url := by
  unfold tryQuoted at h
  split at h
  · cases h
  · rename_i sch r3 hsch
    obtain ⟨hr2, hcol⟩ := matchScheme_spec _ _ _ hsch
    subst hr2
    dsimp only at h
    split at h
    · cases h
    · split at h
      · rename_i c r5' hr4
        split at h
        · rename_i hcq
          subst hcq
          simp only [Option.some.injEq, Prod.mk.injEq] at h
          obtain ⟨rfl, rfl⟩ := h
          have hsplit : r3 = List.takeWhile (fun x => x != c) r3 ++
              List.dropWhile (fun x => x != c) r3 :=
            (List.takeWhile_append_dropWhile _ _).symm
          constructor
          · conv_lhs => rw [hsplit, hr4]
            simp
          · simp [hcol]
        · cases h
      · cases h

/-- A successful `tryQuoted2` splits its input, with the URL containing the
scheme's colon. -/
theorem tryQuoted2_spec (r1 url : List Char) (c : Char) (r5 : List Char)
    (h : tryQuoted2 r1 = some (url, c, r5)) :
    r1 = url ++ c :: r5 ∧ ':' ∈ url := by
  unfold tryQuoted2 at h
  split at h
  · cases h
  · rename_i sch r3 hsch
    obtain ⟨hr1, hcol⟩ := matchScheme_spec _ _ _ hsch
    subst hr1
    dsimp only at h
    split at h
    · cases h
    · split at h
      · rename_i c' r5' hr4
        split at h
        · simp only [Option.some.injEq, Prod.mk.injEq] at h
          obtain ⟨rfl, rfl, rfl⟩ := h
          have hsplit : r3 = List.takeWhile (fun x => !(isQuote2 x || x == ' ')) r3 ++
              List.dropWhile (fun x => !(isQuote2 x || x == ' ')) r3 :=
            (List.takeWhile_append_dropWhile _ _).symm
          constructor
          · conv_lhs => rw [hsplit, hr4]
            simp
          · simp [hcol]
        · cases h
      · cases h

/-- A successful first-pass match splits its input into the matched text
and the remainder. -/
theorem tryMatch1_decomp (s : List Char) (m : M1) (hm : tryMatch1 s = some m) :
    s = m.matched ++ m.rest := by
  unfold tryMatch1 at hm
  split at hm
  · cases hm
  · rename_i attr r1 ha
    have hs1 : s = attr ++ r1 := tryAttr_decomp _ _ _ ha
    subst hs1
    split at hm
    · rename_i c0 q r2
      split at hm
      · rename_i hg
        obtain ⟨rfl, -⟩ := hg
        split at hm
        · cases hm
        · rename_i url r5 htq
          obtain ⟨hr2, -⟩ := tryQuoted_spec _ _ _ _ htq
          subst hr2
          injection hm with hm'
          subst hm'
          simp
      · cases hm
    · cases hm

/-- A successful second-pass match splits its input, and the input contains
a literal colon (from the matched scheme). -/
theorem tryMatch2_spec (s : List Char) (m : M2) (hm : tryMatch2 s = some m) :
    s = m.matched ++ m.rest ∧ ':' ∈ s := by
  unfold tryMatch2 at hm
  split at hm
  · cases hm
  · rename_i q r1
    split at hm
    · split at hm
      · cases hm
      · rename_i url c r5 htq
        obtain ⟨hr1, hcol⟩ := tryQuoted2_spec _ _ _ _ htq
        subst hr1
        injection hm with hm'
        subst hm'
        constructor
        · simp
        · simp [hcol]
    · cases hm

/-- When every URL the first pass matches is rejected by the allowlist, the
pass is the identity: the no-rewrite branch emits exactly the matched
text. -/
theorem pass1A_id :
    ∀ (f : Nat) (s : List Char),
      (∀ u ∈ pass1Urls f s, hostAllowedUrl ⟨u⟩ = false) → pass1A f s = s := by
  intro f
  induction f with
  | zero => intro s h; cases s <;> rfl
  | succ f ih =>
    intro s h
    cases s with
    | nil => rfl
    | cons c cs =>
      cases hm : tryMatch1 (c :: cs) with
      | none =>
        have hcs := ih cs (fun u hu => h u (by simp [pass1Urls, hm, hu]))
        simp [pass1A, hm, hcs]
      | some m =>
        have hu : hostAllowedUrl ⟨m.url⟩ = false := h m.url (by simp [pass1Urls, hm])
        have hrest : pass1A f m.rest = m.rest :=
          ih m.rest (fun u hu' => by
            refine h u ?_
            simp only [pass1Urls, hm]
            exact List.mem_cons_of_mem _ hu')
        have hstep : pass1A (f + 1) (c :: cs) = repl1 m ++ pass1A f m.rest := by
          simp [pass1A, hm]
        rw [hstep, hrest, repl1, if_neg (by simp [hu])]
        exact (tryMatch1_decomp _ _ hm).symm

/-- When every URL the second pass matches is rejected by the allowlist,
the pass is the identity. -/
theorem pass2A_id :
    ∀ (f : Nat) (s : List Char),
      (∀ u ∈ pass2Urls f s, hostAllowedUrl ⟨u⟩ = false) → pass2A f s = s := by
  intro f
  induction f with
  | zero => intro s h; cases s <;> rfl
  | succ f ih =>
    intro s h
    cases s with
    | nil => rfl
    | cons c cs =>
      cases hm : tryMatch2 (c :: cs) with
      | none =>
        have hcs := ih cs (fun u hu => h u (by simp [pass2Urls, hm, hu]))
        simp [pass2A, hm, hcs]
      | some m =>
        have hu : hostAllowedUrl ⟨m.url⟩ = false := h m.url (by simp [pass2Urls, hm])
        have hrest : pass2A f m.rest = m.rest :=
          ih m.rest (fun u hu' => by
            refine h u ?_
            simp only [pass2Urls, hm]
            exact List.mem_cons_of_mem _ hu')
        have hstep : pass2A (f + 1) (c :: cs) = repl2 m ++ pass2A f m.rest := by
          simp [pass2A, hm]
        rw [hstep, hrest, repl2, if_neg (by simp [hu])]
        exact (tryMatch2_spec _ _ hm).1.symm

/-- A colon-free string is untouched by the second pass (every second-pass
match needs the literal `://` of its scheme). -/
theorem pass2A_no_colon :
    ∀ (f : Nat) (s : List Char), ':' ∉ s → pass2A f s = s := by
  intro f
  induction f with
  | zero => intro s h; cases s <;> rfl
  | succ f ih =>
    intro s h
    cases s with
    | nil => rfl
    | cons c cs =>
      cases hm : tryMatch2 (c :: cs) with
      | some m => exact absurd (tryMatch2_spec _ _ hm).2 h
      | none =>
        have hcs : pass2A f cs = cs := ih cs (fun hc => h (by simp [hc]))
        simp [pass2A, hm, hcs]

/-- The hex digits never produce a colon. -/
theorem hexUpper_ne_colon : ∀ n : Nat, hexUpper n ≠ ':' := by
  intro n
  unfold hexUpper
  split <;> decide

/-- Percent-encoding never produces a colon: unreserved characters are not
`:`, and the escape uses `%` plus hex digits. -/
theorem colon_not_mem_enc (l : List Char) : ':' ∉ encodeURIComponentL l := by
  intro hmem
  simp only [encodeURIComponentL, List.mem_flatMap] at hmem
  obtain ⟨c, -, hc⟩ := hmem
  by_cases hu : uriUnreserved c = true
  · rw [if_pos hu] at hc
    simp only [List.mem_singleton] at hc
    subst hc
    exact absurd hu (by decide)
  · rw [if_neg hu] at hc
    simp only [List.mem_flatMap] at hc
    obtain ⟨b, -, hb⟩ := hc
    simp only [List.mem_cons, List.not_mem_nil, or_false] at hb
    rcases hb with h | h | h
    · exact absurd h (by decide)
    · exact absurd h.symm (hexUpper_ne_colon _)
    · exact absurd h.symm (hexUpper_ne_colon _)

/-- The first pass on the empty input. -/
theorem pass1A_nil (f : Nat) : pass1A f [] = [] := by cases f <;> rfl

/-- The second pass on the empty input. -/
theorem pass2A_nil (f : Nat) : pass2A f [] = [] := by cases f <;> rfl

/-- A no-match step of the first pass emits one character. -/
theorem pass1A_step (f : Nat) (c : Char) (cs : List Char)
    (h : tryMatch1 (c :: cs) = none) :
    pass1A (f + 1) (c :: cs) = c :: pass1A f cs := by
  simp [pass1A, h]

/-- A match step of the first pass emits the replacement and continues
after the match. -/
theorem pass1A_mstep (f : Nat) (s : List Char) (m : M1) (hs : s ≠ [])
    (h : tryMatch1 s = some m) :
    pass1A (f + 1) s = repl1 m ++ pass1A f m.rest := by
  cases s with
  | nil => exact absurd rfl hs
  | cons c cs => simp [pass1A, h]

/-- A no-match step of the second pass emits one character. -/
theorem pass2A_step (f : Nat) (c : Char) (cs : List Char)
    (h : tryMatch2 (c :: cs) = none) :
    pass2A (f + 1) (c :: cs) = c :: pass2A f cs := by
  simp [pass2A, h]

/-- A match step of the second pass emits the replacement and continues
after the match. -/
theorem pass2A_mstep (f : Nat) (s : List Char) (m : M2) (hs : s ≠ [])
    (h : tryMatch2 s = some m) :
    pass2A (f + 1) s = repl2 m ++ pass2A f m.rest := by
  cases s with
  | nil => exact absurd rfl hs
  | cons c cs => simp [pass2A, h]

/-- The components of a failed `attrLetter` test. -/
theorem attrLetter_parts (c : Char) (h : attrLetter c = false) :
    isS c = false ∧ isR c = false ∧ isC c = false ∧ isH c = false ∧
      isE c = false ∧ isF c = false := by
  simp only [attrLetter, Bool.or_eq_false_iff] at h
  tauto

/-- `tryAttr` fails on a head character that is no attribute letter. -/
theorem tryAttr_none_head (c : Char) (s : List Char) (h : attrLetter c = false) :
    tryAttr (c :: s) = none := by
  obtain ⟨hs, -, -, hh, -, -⟩ := attrLetter_parts c h
  unfold tryAttr
  rw [show matchLits [isS, isR, isC] (c :: s) = none from by simp [matchLits, hs],
    show matchLits [isH, isR, isE, isF] (c :: s) = none from by simp [matchLits, hh]]

/-- The first pass cannot match at a character that is no attribute
letter. -/
theorem tryMatch1_none_head (c : Char) (s : List Char) (h : attrLetter c = false) :
    tryMatch1 (c :: s) = none := by
  unfold tryMatch1
  rw [tryAttr_none_head c s h]

/-- The second pass cannot match at a non-quote character. -/
theorem tryMatch2_none_head (c : Char) (s : List Char) (h : isQuote2 c = false) :
    tryMatch2 (c :: s) = none := by
  simp [tryMatch2, h]

/-- The second pass cannot match when no scheme follows the opening
quote. -/
theorem tryMatch2_none_scheme (c : Char) (r : List Char) (h : matchScheme r = none) :
    tryMatch2 (c :: r) = none := by
  have h2 : tryQuoted2 r = none := by unfold tryQuoted2; rw [h]
  simp [tryMatch2, h2]

/-- `matchScheme` fails on a head character that is not `h`/`H`. -/
theorem matchScheme_none_head (c : Char) (s : List Char) (h : isH c = false) :
    matchScheme (c :: s) = none := by
  unfold matchScheme
  rw [show matchLits [isH, isT, isT, isP] (c :: s) = none from by simp [matchLits, h]]

/-- `matchScheme` fails when the second character is not `t`/`T`. -/
theorem matchScheme_none_two (c1 c2 : Char) (s : List Char) (h : isT c2 = false) :
    matchScheme (c1 :: c2 :: s) = none := by
  unfold matchScheme
  rw [show matchLits [isH, isT, isT, isP] (c1 :: c2 :: s) = none from by
    by_cases h1 : isH c1 = true
    · simp [matchLits, h1, h]
    · simp [matchLits, h1]]

/-- A character passing `isQuote2` is one of the three quote characters. -/
theorem quote_cases (c : Char) (h : isQuote2 c = true) : c = dq ∨ c = sq ∨ c = bq := by
  simp only [isQuote2, Bool.or_eq_true, beq_iff_eq] at h
  tauto

/-- Quote characters are not attribute letters. -/
theorem quote_not_attrLetter (q : Char) (hq : isQuote2 q = true) : attrLetter q = false := by
  rcases quote_cases q hq with rfl | rfl | rfl <;> decide

/-- Quote characters are not `h`/`H`. -/
theorem quote_not_isH (q : Char) (hq : isQuote2 q = true) : isH q = false := by
  rcases quote_cases q hq with rfl | rfl | rfl <;> decide

/-- The first-pass quote guard implies the second-pass quote class. -/
theorem dq_or_sq_isQuote2 (q : Char) (hq : q = dq ∨ q = sq) : isQuote2 q = true := by
  rcases hq with rfl | rfl <;> decide

/-- `attrLetter` subsumes `isH`. -/
theorem isH_false_of_attrLetter (c : Char) (h : attrLetter c = false) : isH c = false :=
  (attrLetter_parts c h).2.2.2.1

/-- The characters consumed by `matchLits` satisfy any property implied by
every pattern in the list. -/
theorem matchLits_sat (Q : Char → Bool) :
    ∀ (ps : List (Char → Bool)) (s t r : List Char),
      (∀ p ∈ ps, ∀ c, p c = true → Q c = true) →
      matchLits ps s = some (t, r) → ∀ c ∈ t, Q c = true := by
  intro ps
  induction ps with
  | nil =>
    intro s t r _ h c hc
    simp only [matchLits, Option.some.injEq, Prod.mk.injEq] at h
    obtain ⟨rfl, rfl⟩ := h
    simp at hc
  | cons p ps ih =>
    intro s t r hQ h c hc
    cases s with
    | nil => simp [matchLits] at h
    | cons a as =>
      simp only [matchLits] at h
      by_cases hpa : p a = true
      · rw [if_pos hpa] at h
        cases hin : matchLits ps as with
        | none => rw [hin] at h; cases h
        | some tr =>
          obtain ⟨t', r'⟩ := tr
          rw [hin] at h
          simp only [Option.some.injEq, Prod.mk.injEq] at h
          obtain ⟨rfl, rfl⟩ := h
          rcases List.mem_cons.mp hc with rfl | hc'
          · exact hQ p (by simp) c hpa
          · exact ih as t' r' (fun p' hp' => hQ p' (by simp [hp'])) hin c hc'
      · rw [if_neg hpa] at h
        cases h

/-- The attribute name consumed by `tryAttr` consists of attribute
letters. -/
theorem tryAttr_sat (s a r : List Char) (h : tryAttr s = some (a, r)) :
    ∀ c ∈ a, attrLetter c = true := by
  unfold tryAttr at h
  cases h1 : matchLits [isS, isR, isC] s with
  | some tr =>
    obtain ⟨t', r'⟩ := tr
    rw [h1] at h
    simp only [Option.some.injEq, Prod.mk.injEq] at h
    obtain ⟨rfl, rfl⟩ := h
    refine matchLits_sat attrLetter _ _ _ _ ?_ h1
    intro p hp c hc
    simp only [List.mem_cons, List.not_mem_nil, or_false] at hp
    rcases hp with rfl | rfl | rfl <;> simp [attrLetter, hc]
  | none =>
    rw [h1] at h
    refine matchLits_sat attrLetter _ _ _ _ ?_ h
    intro p hp c hc
    simp only [List.mem_cons, List.not_mem_nil, or_false] at hp
    rcases hp with rfl | rfl | rfl | rfl <;> simp [attrLetter, hc]

/-- The scheme consumed by `matchScheme` is scheme letters followed by the
literal `://`. -/
theorem matchScheme_shape (s t r : List Char) (h : matchScheme s = some (t, r)) :
    ∃ L, t = L ++ [':', '/', '/'] ∧ ∀ c ∈ L, schemeLetter c = true := by
  unfold matchScheme at h
  split at h
  · cases h
  · rename_i t4 r4 h4
    have ht4 : ∀ c ∈ t4, schemeLetter c = true := by
      refine matchLits_sat schemeLetter _ _ _ _ ?_ h4
      intro p hp c hc
      simp only [List.mem_cons, List.not_mem_nil, or_false] at hp
      rcases hp with rfl | rfl | rfl | rfl <;> simp [schemeLetter, hc]
    split at h
    · rename_i c r'
      split at h
      · rename_i hsc
        obtain ⟨-, hteq⟩ := matchSchemeTail_spec _ _ _ _ h
        refine ⟨t4 ++ [c], by simp [hteq], ?_⟩
        intro x hx
        rcases List.mem_append.mp hx with hx | hx
        · exact ht4 x hx
        · simp only [List.mem_singleton] at hx
          subst hx
          simp [schemeLetter, hsc]
      · obtain ⟨-, hteq⟩ := matchSchemeTail_spec _ _ _ _ h
        exact ⟨t4, by simp [hteq], ht4⟩
    · obtain ⟨hseq, -⟩ := matchSchemeTail_spec _ _ _ _ h
      cases hseq

/-- The structure forced by a successful first-pass match: attribute
letters, `=`, a double or single quote, then a scheme. -/
theorem tryMatch1_shape (s : List Char) (m : M1) (hm : tryMatch1 s = some m) :
    ∃ a q r2 p, s = a ++ '=' :: q :: r2 ∧ (∀ c ∈ a, attrLetter c = true) ∧
      (q = dq ∨ q = sq) ∧ matchScheme r2 = some p := by
  unfold tryMatch1 at hm
  split at hm
  · cases hm
  · rename_i attr r1 ha
    have hs1 : s = attr ++ r1 := tryAttr_decomp _ _ _ ha
    have hsat := tryAttr_sat _ _ _ ha
    split at hm
    · rename_i c0 q r2
      split at hm
      · rename_i hg
        obtain ⟨rfl, hq⟩ := hg
        split at hm
        · cases hm
        · rename_i url r5 htq
          unfold tryQuoted at htq
          cases hms : matchScheme r2 with
          | none => rw [hms] at htq; cases htq
          | some pr => exact ⟨attr, q, r2, pr, hs1, hsat, hq, hms⟩
      · cases hm
    · cases hm

/-- No scheme can match across a boundary `X ++ d :: R` when `X` is
colon-free and `d` is neither a scheme letter nor the colon: the colon of
`://` can land neither in `X`, nor on `d`, nor beyond `d`. -/
theorem matchScheme_blocked (X : List Char) (d : Char) (R : List Char)
    (hX : ':' ∉ X) (hd1 : schemeLetter d = false) (hd2 : d ≠ ':') :
    matchScheme (X ++ d :: R) = none := by
  cases h : matchScheme (X ++ d :: R) with
  | none => rfl
  | some pr =>
    obtain ⟨t, r⟩ := pr
    obtain ⟨hsplit, -⟩ := matchScheme_spec _ _ _ h
    obtain ⟨L, hte, hL⟩ := matchScheme_shape _ _ _ h
    subst hte
    rw [List.append_assoc] at hsplit
    rcases List.append_eq_append_iff.mp hsplit with ⟨w, h1, h2⟩ | ⟨w, h1, h2⟩
    · cases w with
      | nil =>
        simp only [List.append_nil] at h1
        injection h2 with h2a h2b
        exact absurd h2a hd2
      | cons x w' =>
        injection h2 with h2a h2b
        subst h2a
        have hdL : d ∈ L := by rw [h1]; simp
        rw [hL d hdL] at hd1
        cases hd1
    · cases w with
      | nil =>
        simp only [List.append_nil] at h1
        injection h2 with h2a h2b
        exact absurd h2a.symm hd2
      | cons y w' =>
        injection h2 with h2a h2b
        subst h2a
        have : ':' ∈ X := by rw [h1]; simp
        exact absurd this hX

/-- The first pass cannot match at any position of a quote-free URL body
followed by a closing quote, provided no scheme matches right after the
closing quote: a match would need its own quote either inside the body (no
quotes there), on the closing quote itself (then its scheme would start in
`R`), or past it (then the closing quote would be an attribute letter or
the `=`). -/
theorem tryMatch1_blocked_quote (u : List Char) (q : Char) (R : List Char)
    (hu : ∀ c ∈ u, isQuote2 c = false) (hq : isQuote2 q = true)
    (hR : matchScheme R = none) :
    tryMatch1 (u ++ q :: R) = none := by
  cases h : tryMatch1 (u ++ q :: R) with
  | none => rfl
  | some m =>
    obtain ⟨a, q', r2, p, hsplit, ha, hq', hms⟩ := tryMatch1_shape _ _ h
    have hsplit' : u ++ q :: R = (a ++ ['=']) ++ q' :: r2 := by
      rw [hsplit]; simp
    rcases List.append_eq_append_iff.mp hsplit' with ⟨w, h1, h2⟩ | ⟨w, h1, h2⟩
    · cases w with
      | nil =>
        simp only [List.append_nil] at h1
        injection h2 with h2a h2b
        rw [← h2b] at hms
        rw [hms] at hR
        cases hR
      | cons x w' =>
        injection h2 with h2a h2b
        subst h2a
        have hqmem : q ∈ a ++ ['='] := by rw [h1]; simp
        rcases List.mem_append.mp hqmem with hqa | hqe
        · have h3 := ha q hqa
          rw [quote_not_attrLetter q hq] at h3
          cases h3
        · simp only [List.mem_singleton] at hqe
          subst hqe
          exact absurd hq (by decide)
    · cases w with
      | nil =>
        simp only [List.append_nil] at h1
        injection h2 with h2a h2b
        rw [h2b] at hms
        rw [hms] at hR
        cases hR
      | cons y w' =>
        injection h2 with h2a h2b
        subst h2a
        have hmem : q' ∈ u := by rw [h1]; simp
        have := hu q' hmem
        rw [dq_or_sq_isQuote2 q' hq'] at this
        cases this

/-- The hex digits are never quote characters. -/
theorem hexUpper_not_quote : ∀ n : Nat, isQuote2 (hexUpper n) = false := by
  intro n
  unfold hexUpper
  split <;> decide

/-- The only quote character percent-encoding can emit is the single
quote (which is unreserved); `"` and the backtick are escaped. -/
theorem enc_quote (l : List Char) (c : Char) (hc : c ∈ encodeURIComponentL l)
    (hq : isQuote2 c = true) : c = sq := by
  simp only [encodeURIComponentL, List.mem_flatMap] at hc
  obtain ⟨c0, -, hc0⟩ := hc
  by_cases hu : uriUnreserved c0 = true
  · rw [if_pos hu] at hc0
    simp only [List.mem_singleton] at hc0
    subst hc0
    rcases quote_cases _ hq with rfl | rfl | rfl
    · exact absurd hu (by decide)
    · rfl
    · exact absurd hu (by decide)
  · rw [if_neg hu] at hc0
    simp only [List.mem_flatMap] at hc0
    obtain ⟨b, -, hb⟩ := hc0
    simp only [List.mem_cons, List.not_mem_nil, or_false] at hb
    rcases hb with rfl | rfl | rfl
    · exact absurd hq (by decide)
    · rw [hexUpper_not_quote] at hq; cases hq
    · rw [hexUpper_not_quote] at hq; cases hq

/-- A suffix of a concatenation is a suffix of the right part or a
nonempty suffix of the left part followed by the whole right part. -/
theorem suffix_append_cases {α : Type} (u X Y : List α) (h : u <:+ X ++ Y) :
    u <:+ Y ∨ ∃ w, w ≠ [] ∧ w <:+ X ∧ u = w ++ Y := by
  obtain ⟨p, hp⟩ := h
  rcases List.append_eq_append_iff.mp hp with ⟨w, h1, h2⟩ | ⟨w, h1, h2⟩
  · cases w with
    | nil =>
      simp only [List.nil_append] at h2
      exact Or.inl (h2 ▸ List.suffix_rfl)
    | cons x w' =>
      exact Or.inr ⟨x :: w', List.cons_ne_nil x w', ⟨p, h1.symm⟩, h2⟩
  · exact Or.inl ⟨w, h2.symm⟩

/-- The first pass cannot match at any proper position inside a scheme:
each suffix of `http://` / `https://` starts with a character ruling out
both attribute alternatives within two characters. -/
theorem tryMatch1_scheme_suffix (k : SchemeKind) (w X : List Char)
    (hw : w <:+ schemeChars k) (hne : w ≠ []) :
    tryMatch1 (w ++ X) = none := by
  cases k with
  | http =>
    have hmem : w ∈ (['h', 't', 't', 'p', ':', '/', '/'] : List Char).tails :=
      (List.mem_tails _ _).mpr hw
    have htails : (['h', 't', 't', 'p', ':', '/', '/'] : List Char).tails =
        [ ['h', 't', 't', 'p', ':', '/', '/'], ['t', 't', 'p', ':', '/', '/']
        , ['t', 'p', ':', '/', '/'], ['p', ':', '/', '/'], [':', '/', '/']
        , ['/', '/'], ['/'], [] ] := by decide
    rw [htails] at hmem
    simp only [List.mem_cons, List.not_mem_nil, or_false] at hmem
    rcases hmem with rfl | rfl | rfl | rfl | rfl | rfl | rfl | rfl
    · rfl
    · rfl
    · rfl
    · rfl
    · rfl
    · rfl
    · rfl
    · exact absurd rfl hne
  | https =>
    have hmem : w ∈ (['h', 't', 't', 'p', 's', ':', '/', '/'] : List Char).tails :=
      (List.mem_tails _ _).mpr hw
    have htails : (['h', 't', 't', 'p', 's', ':', '/', '/'] : List Char).tails =
        [ ['h', 't', 't', 'p', 's', ':', '/', '/'], ['t', 't', 'p', 's', ':', '/', '/']
        , ['t', 'p', 's', ':', '/', '/'], ['p', 's', ':', '/', '/'], ['s', ':', '/', '/']
        , [':', '/', '/'], ['/', '/'], ['/'], [] ] := by decide
    rw [htails] at hmem
    simp only [List.mem_cons, List.not_mem_nil, or_false] at hmem
    rcases hmem with rfl | rfl | rfl | rfl | rfl | rfl | rfl | rfl | rfl
    · rfl
    · rfl
    · rfl
    · rfl
    · rfl
    · rfl
    · rfl
    · rfl
    · exact absurd rfl hne

/-- `tryAttr` consumes exactly an attribute name at its head. -/
theorem tryAttr_eval (a : AttrName) (X : List Char) :
    tryAttr (attrNameChars a ++ X) = some (attrNameChars a, X) := by
  cases a <;> rfl

/-- `matchScheme` consumes exactly a scheme at its head. -/
theorem matchScheme_eval (k : SchemeKind) (X : List Char) :
    matchScheme (schemeChars k ++ X) = some (schemeChars k, X) := by
  cases k <;> rfl

/-- Evaluation of `tryQuoted` on a scheme, a quote-free body and the
closing quote. -/
theorem tryQuoted_eval (q : Char) (k : SchemeKind) (rest R : List Char)
    (hne : rest ≠ []) (hrest : ∀ c ∈ rest, (c != q) = true) :
    tryQuoted q (schemeChars k ++ (rest ++ q :: R)) = some (schemeChars k ++ rest, R) := by
  unfold tryQuoted
  rw [matchScheme_eval]
  dsimp only
  have htake : (rest ++ q :: R).takeWhile (fun c => c != q) = rest := by
    rw [takeWhile_append_of_all _ _ _ hrest]
    simp [List.takeWhile_cons]
  have hdrop : (rest ++ q :: R).dropWhile (fun c => c != q) = q :: R := by
    rw [dropWhile_append_of_all _ _ _ hrest]
    simp [List.dropWhile_cons]
  rw [htake, hdrop]
  have hre : rest.isEmpty = false := by
    cases rest with
    | nil => exact absurd rfl hne
    | cons a l => rfl
  simp [hre]

/-- Evaluation of the first pass's matcher on a rendered attribute segment
followed by anything: the match consumes exactly the segment. -/
theorem tryMatch1_attr_eval (a : AttrName) (q : Char) (k : SchemeKind) (rest R : List Char)
    (hq : q = dq ∨ q = sq) (hne : rest ≠ []) (hrq : ∀ c ∈ rest, isQuote2 c = false) :
    tryMatch1 (renderItem (.attr a q k rest) ++ R) =
      some { matched := attrNameChars a ++ '=' :: q :: urlOf k rest ++ [q]
           , url := urlOf k rest
           , attr := attrNameChars a
           , quote := q
           , rest := R } := by
  have hrest : ∀ c ∈ rest, (c != q) = true := by
    intro c hc
    have h1 := hrq c hc
    simp only [isQuote2, Bool.or_eq_false_iff, beq_eq_false_iff_ne] at h1
    rcases hq with rfl | rfl
    · simpa [bne_iff_ne] using h1.1.1
    · simpa [bne_iff_ne] using h1.1.2
  have hrender : renderItem (.attr a q k rest) ++ R =
      attrNameChars a ++ '=' :: q :: (schemeChars k ++ (rest ++ q :: R)) := by
    simp [renderItem, urlOf]
  rw [hrender]
  unfold tryMatch1
  rw [tryAttr_eval]
  dsimp only
  rw [if_pos ⟨rfl, hq⟩, tryQuoted_eval q k rest R hne hrest]
  simp [urlOf]

/-- Evaluation of the second pass's matcher on a quoted URL (a quoted
string literal or the value part of an untouched attribute) followed by
anything: the match consumes through the closing quote. -/
theorem tryMatch2_val_eval (q : Char) (k : SchemeKind) (rest R : List Char)
    (hq : isQuote2 q = true) (hne : rest ≠ [])
    (hrest : ∀ c ∈ rest, isQuote2 c = false ∧ c ≠ ' ') :
    tryMatch2 (q :: (schemeChars k ++ (rest ++ q :: R))) =
      some { matched := q :: urlOf k rest ++ [q]
           , url := urlOf k rest
           , quote := q
           , rest := R } := by
  have hbody : ∀ c ∈ rest, (!(isQuote2 c || c == ' ')) = true := by
    intro c hc
    obtain ⟨h1, h2⟩ := hrest c hc
    simp [h1, h2]
  have htq2 : tryQuoted2 (schemeChars k ++ (rest ++ q :: R)) =
      some (schemeChars k ++ rest, q, R) := by
    unfold tryQuoted2
    rw [matchScheme_eval]
    dsimp only
    have htake : (rest ++ q :: R).takeWhile (fun c => !(isQuote2 c || c == ' ')) = rest := by
      rw [takeWhile_append_of_all _ _ _ hbody]
      simp [List.takeWhile_cons, hq]
    have hdrop : (rest ++ q :: R).dropWhile (fun c => !(isQuote2 c || c == ' ')) = q :: R := by
      rw [dropWhile_append_of_all _ _ _ hbody]
      simp [List.dropWhile_cons, hq]
    rw [htake, hdrop]
    have hre : rest.isEmpty = false := by
      cases rest with
      | nil => exact absurd rfl hne
      | cons a l => rfl
    simp [hre, hq]
  unfold tryMatch2
  dsimp only
  rw [if_pos hq, htq2]
  simp [urlOf]

/-- The first pass walks over a block none of whose suffixes starts a
match, emitting it unchanged. -/
theorem pass1A_skip :
    ∀ (l R : List Char) (f : Nat),
      (∀ u, u ≠ [] → u <:+ l → tryMatch1 (u ++ R) = none) →
      pass1A (f + l.length) (l ++ R) = l ++ pass1A f R := by
  intro l
  induction l with
  | nil => intro R f _; simp
  | cons c l' ih =>
    intro R f hcond
    have hlen : f + (c :: l').length = (f + l'.length) + 1 := by
      rw [List.length_cons]; omega
    have hstep : tryMatch1 (c :: (l' ++ R)) = none :=
      hcond (c :: l') (List.cons_ne_nil c l') List.suffix_rfl
    rw [hlen, List.cons_append, pass1A_step _ _ _ hstep,
      ih R f (fun u hu hsuf => hcond u hu (hsuf.trans (List.suffix_cons c l')))]
    rfl

/-- The second pass walks over a block none of whose suffixes starts a
match, emitting it unchanged. -/
theorem pass2A_skip :
    ∀ (l R : List Char) (f : Nat),
      (∀ u, u ≠ [] → u <:+ l → tryMatch2 (u ++ R) = none) →
      pass2A (f + l.length) (l ++ R) = l ++ pass2A f R := by
  intro l
  induction l with
  | nil => intro R f _; simp
  | cons c l' ih =>
    intro R f hcond
    have hlen : f + (c :: l').length = (f + l'.length) + 1 := by
      rw [List.length_cons]; omega
    have hstep : tryMatch2 (c :: (l' ++ R)) = none :=
      hcond (c :: l') (List.cons_ne_nil c l') List.suffix_rfl
    rw [hlen, List.cons_append, pass2A_step _ _ _ hstep,
      ih R f (fun u hu hsuf => hcond u hu (hsuf.trans (List.suffix_cons c l')))]
    rfl

/-- Unpacked well-formedness of a text segment. -/
theorem wf_text_facts (t : List Char) (h : wfItem (.text t) = true) :
    t ≠ [] ∧ ∀ c ∈ t, attrLetter c = false ∧ isQuote2 c = false := by
  simp only [wfItem, Bool.and_eq_true, List.all_eq_true] at h
  obtain ⟨h1, h2⟩ := h
  constructor
  · cases t with
    | nil => simp at h1
    | cons x l => exact List.cons_ne_nil x l
  · intro c hc
    simpa using h2 c hc

/-- Unpacked well-formedness of an attribute segment. -/
theorem wf_attr_facts (a : AttrName) (q : Char) (k : SchemeKind) (rest : List Char)
    (h : wfItem (.attr a q k rest) = true) :
    (q = dq ∨ q = sq) ∧ rest ≠ [] ∧ ∀ c ∈ rest, isQuote2 c = false ∧ c ≠ ' ' := by
  simp only [wfItem, Bool.and_eq_true, List.all_eq_true] at h
  obtain ⟨⟨hq, h1⟩, h2⟩ := h
  refine ⟨?_, ?_, ?_⟩
  · simpa [Bool.or_eq_true, beq_iff_eq] using hq
  · cases rest with
    | nil => simp at h1
    | cons x l => exact List.cons_ne_nil x l
  · intro c hc
    simpa using h2 c hc

/-- Unpacked well-formedness of a quoted-literal segment. -/
theorem wf_lit_facts (q : Char) (k : SchemeKind) (rest : List Char)
    (h : wfItem (.lit q k rest) = true) :
    isQuote2 q = true ∧ rest ≠ [] ∧ ∀ c ∈ rest, isQuote2 c = false ∧ c ≠ ' ' := by
  simp only [wfItem, Bool.and_eq_true, List.all_eq_true] at h
  obtain ⟨⟨hq, h1⟩, h2⟩ := h
  refine ⟨hq, ?_, ?_⟩
  · cases rest with
    | nil => simp at h1
    | cons x l => exact List.cons_ne_nil x l
  · intro c hc
    simpa using h2 c hc

/-- No scheme matches at the start of a rendered well-formed body: every
segment kind starts with a character sequence ruling it out. -/
theorem renderAll_scheme_none :
    ∀ (items : List HtmlItem), (∀ i ∈ items, wfItem i = true) →
      matchScheme (items.flatMap renderItem) = none := by
  intro items hwf
  cases items with
  | nil => rfl
  | cons it rest =>
    have hit : wfItem it = true := hwf it (by simp)
    cases it with
    | text t =>
      obtain ⟨hne, hch⟩ := wf_text_facts t hit
      cases t with
      | nil => exact absurd rfl hne
      | cons c t' =>
        have hc : isH c = false := isH_false_of_attrLetter c (hch c (by simp)).1
        simp only [List.flatMap_cons, renderItem, List.cons_append]
        exact matchScheme_none_head c _ hc
    | attr a q k rest' =>
      cases a with
      | src =>
        simp only [List.flatMap_cons, renderItem, attrNameChars, List.cons_append,
          List.nil_append, List.append_assoc]
        exact matchScheme_none_head 's' _ (by decide)
      | href =>
        simp only [List.flatMap_cons, renderItem, attrNameChars, List.cons_append,
          List.nil_append, List.append_assoc]
        exact matchScheme_none_two 'h' 'r' _ (by decide)
    | lit q k rest' =>
      obtain ⟨hq, -, -⟩ := wf_lit_facts q k rest' hit
      simp only [List.flatMap_cons, renderItem, List.cons_append]
      exact matchScheme_none_head q _ (quote_not_isH q hq)

/-- No scheme matches at the start of a well-formed body after the first
pass: rewritten attributes still start with their attribute name. -/
theorem pass1All_scheme_none :
    ∀ (items : List HtmlItem), (∀ i ∈ items, wfItem i = true) →
      matchScheme (items.flatMap pass1Item) = none := by
  intro items hwf
  cases items with
  | nil => rfl
  | cons it rest =>
    have hit : wfItem it = true := hwf it (by simp)
    cases it with
    | text t =>
      obtain ⟨hne, hch⟩ := wf_text_facts t hit
      cases t with
      | nil => exact absurd rfl hne
      | cons c t' =>
        have hc : isH c = false := isH_false_of_attrLetter c (hch c (by simp)).1
        simp only [List.flatMap_cons, pass1Item, renderItem, List.cons_append]
        exact matchScheme_none_head c _ hc
    | attr a q k rest' =>
      by_cases hal : hostAllowedUrl ⟨urlOf k rest'⟩ = true
      · cases a with
        | src =>
          simp only [List.flatMap_cons, pass1Item, if_pos hal, attrNameChars,
            List.cons_append, List.nil_append, List.append_assoc]
          exact matchScheme_none_head 's' _ (by decide)
        | href =>
          simp only [List.flatMap_cons, pass1Item, if_pos hal, attrNameChars,
            List.cons_append, List.nil_append, List.append_assoc]
          exact matchScheme_none_two 'h' 'r' _ (by decide)
      · cases a with
        | src =>
          simp only [List.flatMap_cons, pass1Item, if_neg hal, renderItem, attrNameChars,
            List.cons_append, List.nil_append, List.append_assoc]
          exact matchScheme_none_head 's' _ (by decide)
        | href =>
          simp only [List.flatMap_cons, pass1Item, if_neg hal, renderItem, attrNameChars,
            List.cons_append, List.nil_append, List.append_assoc]
          exact matchScheme_none_two 'h' 'r' _ (by decide)
    | lit q k rest' =>
      obtain ⟨hq, -, -⟩ := wf_lit_facts q k rest' hit
      simp only [List.flatMap_cons, pass1Item, renderItem, List.cons_append]
      exact matchScheme_none_head q _ (quote_not_isH q hq)

/-- The first pass over a well-formed structured body acts segment by
segment: each rendered attribute is matched and replaced whole (gated by
the allowlist), while text and quoted literals are walked without a
match. -/
theorem pass1_items :
    ∀ (items : List HtmlItem), (∀ i ∈ items, wfItem i = true) → ∀ f : Nat,
      pass1A (f + (items.flatMap renderItem).length) (items.flatMap renderItem) =
        items.flatMap pass1Item := by
  intro items
  induction items with
  | nil => intro _ f; simp [pass1A_nil]
  | cons it rest ih =>
    intro hwf f
    have hit : wfItem it = true := hwf it (by simp)
    have hrest : ∀ i ∈ rest, wfItem i = true := fun i hi => hwf i (by simp [hi])
    have ihr := ih hrest
    cases it with
    | text t =>
      obtain ⟨hne, hch⟩ := wf_text_facts t hit
      have hcond : ∀ u, u ≠ [] → u <:+ t →
          tryMatch1 (u ++ rest.flatMap renderItem) = none := by
        intro u hu hsuf
        cases u with
        | nil => exact absurd rfl hu
        | cons c u' => exact tryMatch1_none_head c _ (hch c (hsuf.subset (by simp))).1
      simp only [List.flatMap_cons]
      rw [show renderItem (.text t) = t from rfl, show pass1Item (.text t) = t from rfl,
        show f + (t ++ rest.flatMap renderItem).length =
          (f + (rest.flatMap renderItem).length) + t.length from by
          rw [List.length_append]; omega,
        pass1A_skip _ _ _ hcond, ihr f]
    | attr a q k rest' =>
      obtain ⟨hq, hne, hch⟩ := wf_attr_facts a q k rest' hit
      have hrq : ∀ c ∈ rest', isQuote2 c = false := fun c hc => (hch c hc).1
      have htm := tryMatch1_attr_eval a q k rest' (rest.flatMap renderItem) hq hne hrq
      have hren : renderItem (.attr a q k rest') ≠ [] := by
        cases a <;> simp [renderItem, attrNameChars]
      have hren1 : 1 ≤ (renderItem (.attr a q k rest')).length := by
        cases hl : (renderItem (.attr a q k rest')).length with
        | zero => exact absurd (List.length_eq_zero.mp hl) hren
        | succ n => omega
      simp only [List.flatMap_cons]
      rw [show f + (renderItem (.attr a q k rest') ++ rest.flatMap renderItem).length =
          (((f + (renderItem (.attr a q k rest')).length) - 1) +
            (rest.flatMap renderItem).length) + 1 from by
          rw [List.length_append]; omega,
        pass1A_mstep _ _ _
          (fun hc => hren (List.append_eq_nil.mp hc).1) htm]
      dsimp only
      rw [ihr ((f + (renderItem (.attr a q k rest')).length) - 1)]
      have hrepl : repl1 { matched := attrNameChars a ++ '=' :: q :: urlOf k rest' ++ [q]
                         , url := urlOf k rest'
                         , attr := attrNameChars a
                         , quote := q
                         , rest := rest.flatMap renderItem } =
          pass1Item (.attr a q k rest') := by
        by_cases hal : hostAllowedUrl ⟨urlOf k rest'⟩ = true
        · simp [repl1, pass1Item, hal, proxiedChars]
        · simp [repl1, pass1Item, hal, renderItem]
      rw [hrepl]
    | lit q k rest' =>
      obtain ⟨hq, hne, hch⟩ := wf_lit_facts q k rest' hit
      have hsch : matchScheme (rest.flatMap renderItem) = none :=
        renderAll_scheme_none rest hrest
      have hcond : ∀ u, u ≠ [] → u <:+ renderItem (.lit q k rest') →
          tryMatch1 (u ++ rest.flatMap renderItem) = none := by
        intro u hu hsuf
        have hsuf' : u <:+ q :: ((schemeChars k ++ rest') ++ [q]) := by
          simpa [renderItem, urlOf] using hsuf
        rcases List.suffix_cons_iff.mp hsuf' with rfl | hsuf2
        · exact tryMatch1_none_head q _ (quote_not_attrLetter q hq)
        · rcases suffix_append_cases u (schemeChars k ++ rest') [q] hsuf2 with
            h1 | ⟨w, hwne, hwsuf, rfl⟩
          · rcases List.suffix_cons_iff.mp h1 with rfl | h0
            · exact tryMatch1_none_head q _ (quote_not_attrLetter q hq)
            · exact absurd (List.suffix_nil.mp h0) hu
          · rcases suffix_append_cases w (schemeChars k) rest' hwsuf with
              h2 | ⟨ws, hwsne, hwssuf, rfl⟩
            · have hwq : ∀ c ∈ w, isQuote2 c = false := fun c hc => (hch c (h2.subset hc)).1
              have h3 := tryMatch1_blocked_quote w q (rest.flatMap renderItem) hwq hq hsch
              simpa [List.append_assoc] using h3
            · have h3 := tryMatch1_scheme_suffix k ws
                (rest' ++ ([q] ++ rest.flatMap renderItem)) hwssuf hwsne
              simpa [List.append_assoc] using h3
      simp only [List.flatMap_cons]
      rw [show pass1Item (.lit q k rest') = renderItem (.lit q k rest') from rfl,
        show f + (renderItem (.lit q k rest') ++ rest.flatMap renderItem).length =
          (f + (rest.flatMap renderItem).length) + (renderItem (.lit q k rest')).length from by
          rw [List.length_append]; omega,
        pass1A_skip _ _ _ hcond, ihr f]

/-- The second pass over the first pass's output on a well-formed
structured body: rewritten attributes and text are walked unchanged, the
value of an untouched attribute and every quoted literal are matched as
quoted literals and rewritten exactly when their URL passes the
allowlist. -/
theorem pass2_items :
    ∀ (items : List HtmlItem), (∀ i ∈ items, wfItem i = true) → ∀ f : Nat,
      pass2A (f + (items.flatMap pass1Item).length) (items.flatMap pass1Item) =
        items.flatMap rewriteItem := by
  intro items
  induction items with
  | nil => intro _ f; simp [pass2A_nil]
  | cons it rest ih =>
    intro hwf f
    have hit : wfItem it = true := hwf it (by simp)
    have hrest : ∀ i ∈ rest, wfItem i = true := fun i hi => hwf i (by simp [hi])
    have ihr := ih hrest
    have hsch2 : matchScheme (rest.flatMap pass1Item) = none :=
      pass1All_scheme_none rest hrest
    cases it with
    | text t =>
      obtain ⟨hne, hch⟩ := wf_text_facts t hit
      have hcond : ∀ u, u ≠ [] → u <:+ t →
          tryMatch2 (u ++ rest.flatMap pass1Item) = none := by
        intro u hu hsuf
        cases u with
        | nil => exact absurd rfl hu
        | cons c u' => exact tryMatch2_none_head c _ (hch c (hsuf.subset (by simp))).2
      simp only [List.flatMap_cons]
      rw [show pass1Item (.text t) = t from rfl, show rewriteItem (.text t) = t from rfl,
        show f + (t ++ rest.flatMap pass1Item).length =
          (f + (rest.flatMap pass1Item).length) + t.length from by
          rw [List.length_append]; omega,
        pass2A_skip _ _ _ hcond, ihr f]
    | lit q k rest' =>
      obtain ⟨hq, hne, hch⟩ := wf_lit_facts q k rest' hit
      have htm := tryMatch2_val_eval q k rest' (rest.flatMap pass1Item) hq hne hch
      have hshape : pass1Item (.lit q k rest') ++ rest.flatMap pass1Item =
          q :: (schemeChars k ++ (rest' ++ q :: rest.flatMap pass1Item)) := by
        simp [pass1Item, renderItem, urlOf]
      simp only [List.flatMap_cons]
      rw [hshape]
      rw [show f + (q :: (schemeChars k ++ (rest' ++ q :: rest.flatMap pass1Item))).length =
          (((f + 1 + (schemeChars k).length + rest'.length) +
            (rest.flatMap pass1Item).length)) + 1 from by
          simp only [List.length_cons, List.length_append]; omega,
        pass2A_mstep _ _ _ (List.cons_ne_nil _ _) htm]
      dsimp only
      rw [ihr (f + 1 + (schemeChars k).length + rest'.length)]
      have hrepl : repl2 { matched := q :: urlOf k rest' ++ [q]
                         , url := urlOf k rest'
                         , quote := q
                         , rest := rest.flatMap pass1Item } =
          rewriteItem (.lit q k rest') := by
        by_cases hal : hostAllowedUrl ⟨urlOf k rest'⟩ = true
        · simp [repl2, rewriteItem, hal, proxiedChars]
        · simp [repl2, rewriteItem, hal, renderItem]
      rw [hrepl]
    | attr a q k rest' =>
      obtain ⟨hqor, hne, hch⟩ := wf_attr_facts a q k rest' hit
      have hallq : ∀ x ∈ attrNameChars a ++ ['='], isQuote2 x = false := by
        cases a <;> decide
      by_cases hal : hostAllowedUrl ⟨urlOf k rest'⟩ = true
      · -- the attribute was rewritten by the first pass; the second pass
        -- walks it without a match
        have hitem : pass1Item (.attr a q k rest') =
            (attrNameChars a ++ ['=']) ++
              (dq :: (("/api/proxy?target=".data ++
                encodeURIComponentL (urlOf k rest')) ++ [dq])) := by
          simp [pass1Item, hal, proxiedChars]
        have hcond : ∀ u, u ≠ [] →
            u <:+ (attrNameChars a ++ ['=']) ++
              (dq :: (("/api/proxy?target=".data ++
                encodeURIComponentL (urlOf k rest')) ++ [dq])) →
            tryMatch2 (u ++ rest.flatMap pass1Item) = none := by
          intro u hu hsuf
          rcases suffix_append_cases u _ _ hsuf with h1 | ⟨w, hwne, hwsuf, rfl⟩
          · rcases List.suffix_cons_iff.mp h1 with rfl | h2
            · refine tryMatch2_none_scheme dq _ ?_
              have h3 := matchScheme_none_head '/'
                ("api/proxy?target=".data ++
                  (encodeURIComponentL (urlOf k rest') ++
                    ([dq] ++ rest.flatMap pass1Item))) (by decide)
              simpa [List.append_assoc,
                show "/api/proxy?target=".data = '/' :: "api/proxy?target=".data from rfl]
                using h3
            · rcases suffix_append_cases u _ [dq] h2 with h3 | ⟨w, hwne, hwsuf, rfl⟩
              · rcases List.suffix_cons_iff.mp h3 with rfl | h4
                · exact tryMatch2_none_scheme dq _ hsch2
                · exact absurd (List.suffix_nil.mp h4) hu
              · rcases suffix_append_cases w _ _ hwsuf with h5 | ⟨wp, hwpne, hwpsuf, rfl⟩
                · cases w with
                  | nil => exact absurd rfl hwne
                  | cons c w0 =>
                    cases hqc : isQuote2 c with
                    | false => exact tryMatch2_none_head c _ hqc
                    | true =>
                      have hw0 : ':' ∉ w0 := fun hmem =>
                        colon_not_mem_enc (urlOf k rest')
                          (h5.subset (List.mem_cons_of_mem c hmem))
                      refine tryMatch2_none_scheme c _ ?_
                      have h6 := matchScheme_blocked w0 dq (rest.flatMap pass1Item)
                        hw0 (by decide) (by decide)
                      simpa [List.append_assoc] using h6
                · cases wp with
                  | nil => exact absurd rfl hwpne
                  | cons c wp0 =>
                    have hcp : c ∈ "/api/proxy?target=".data := hwpsuf.subset (by simp)
                    have hall : ∀ x ∈ "/api/proxy?target=".data, isQuote2 x = false := by
                      decide
                    exact tryMatch2_none_head c _ (hall c hcp)
          · cases w with
            | nil => exact absurd rfl hwne
            | cons c w0 =>
              exact tryMatch2_none_head c _ (hallq c (hwsuf.subset (by simp)))
        simp only [List.flatMap_cons]
        rw [show rewriteItem (.attr a q k rest') = pass1Item (.attr a q k rest') from rfl,
          hitem]
        rw [show f + (((attrNameChars a ++ ['=']) ++
              (dq :: (("/api/proxy?target=".data ++
                encodeURIComponentL (urlOf k rest')) ++ [dq]))) ++
              rest.flatMap pass1Item).length =
            (f + (rest.flatMap pass1Item).length) +
              ((attrNameChars a ++ ['=']) ++
                (dq :: (("/api/proxy?target=".data ++
                  encodeURIComponentL (urlOf k rest')) ++ [dq]))).length from by
            rw [List.length_append]; omega,
          pass2A_skip _ _ _ hcond, ihr f]
      · -- the attribute was left alone by the first pass; its name and
        -- equals sign are walked and its value is matched but kept
        have hitem : pass1Item (.attr a q k rest') =
            (attrNameChars a ++ ['=']) ++ (q :: (schemeChars k ++ (rest' ++ [q]))) := by
          simp only [pass1Item]
          rw [if_neg hal]
          simp [renderItem, urlOf, List.append_assoc]
        have htm := tryMatch2_val_eval q k rest' (rest.flatMap pass1Item)
          (dq_or_sq_isQuote2 q hqor) hne hch
        have hcond1 : ∀ u, u ≠ [] → u <:+ attrNameChars a ++ ['='] →
            tryMatch2 (u ++
              (q :: (schemeChars k ++ (rest' ++ q :: rest.flatMap pass1Item)))) = none := by
          intro u hu hsuf
          cases u with
          | nil => exact absurd rfl hu
          | cons c u0 =>
            exact tryMatch2_none_head c _ (hallq c (hsuf.subset (by simp)))
        simp only [List.flatMap_cons]
        rw [show rewriteItem (.attr a q k rest') = pass1Item (.attr a q k rest') from rfl,
          hitem]
        have hflat : ((attrNameChars a ++ ['=']) ++
              (q :: (schemeChars k ++ (rest' ++ [q])))) ++ rest.flatMap pass1Item =
            (attrNameChars a ++ ['=']) ++
              (q :: (schemeChars k ++ (rest' ++ q :: rest.flatMap pass1Item))) := by
          simp [List.append_assoc]
        rw [hflat]
        rw [show f + ((attrNameChars a ++ ['=']) ++
              (q :: (schemeChars k ++ (rest' ++ q :: rest.flatMap pass1Item)))).length =
            ((((f + 1 + (schemeChars k).length + rest'.length) +
              (rest.flatMap pass1Item).length) + 1) +
              (attrNameChars a ++ ['=']).length) from by
            simp only [List.length_cons, List.length_append]; omega,
          pass2A_skip _ _ _ hcond1,
          pass2A_mstep _ _ _ (List.cons_ne_nil _ _) htm]
        dsimp only
        rw [ihr (f + 1 + (schemeChars k).length + rest'.length)]
        rw [show repl2 { matched := q :: urlOf k rest' ++ [q]
                       , url := urlOf k rest'
                       , quote := q
                       , rest := rest.flatMap pass1Item } =
            q :: urlOf k rest' ++ [q] from by simp [repl2, hal]]
        simp [urlOf, List.append_assoc]

/-- Evaluation of the first pass on a single double-quoted `src` attribute
holding an allowlisted `https` URL: the URL is rewritten into the proxied
path. -/
theorem pass1A_src_attr (f : Nat) (v : List Char) (hne : v ≠ [])
    (hq : ∀ c ∈ v, c ≠ dq)
    (hallow : hostAllowedUrl ⟨'h' :: 't' :: 't' :: 'p' :: 's' :: ':' :: '/' :: '/' :: v⟩ = true) :
    pass1A (f + 1)
        ('s' :: 'r' :: 'c' :: '=' :: dq ::
          'h' :: 't' :: 't' :: 'p' :: 's' :: ':' :: '/' :: '/' :: (v ++ [dq])) =
      's' :: 'r' :: 'c' :: '=' :: dq ::
        (("/api/proxy?target=".data ++
          encodeURIComponentL ('h' :: 't' :: 't' :: 'p' :: 's' :: ':' :: '/' :: '/' :: v)) ++
          [dq]) := by
  have hvq : ∀ c ∈ v, (c != dq) = true := by
    intro c hc
    simp only [bne_iff_ne, ne_eq]
    exact hq c hc
  have htake : (v ++ [dq]).takeWhile (fun c => c != dq) = v := by
    rw [takeWhile_append_of_all _ _ _ hvq]
    simp [List.takeWhile_cons]
  have hdrop : (v ++ [dq]).dropWhile (fun c => c != dq) = [dq] := by
    rw [dropWhile_append_of_all _ _ _ hvq]
    simp [List.dropWhile_cons]
  have hv : v.isEmpty = false := by
    cases v with
    | nil => exact absurd rfl hne
    | cons a l => rfl
  have hsch : matchScheme ('h' :: 't' :: 't' :: 'p' :: 's' :: ':' :: '/' :: '/' :: (v ++ [dq])) =
      some (['h', 't', 't', 'p', 's', ':', '/', '/'], v ++ [dq]) := rfl
  have htq : tryQuoted dq ('h' :: 't' :: 't' :: 'p' :: 's' :: ':' :: '/' :: '/' :: (v ++ [dq])) =
      some (['h', 't', 't', 'p', 's', ':', '/', '/'] ++ v, []) := by
    unfold tryQuoted
    rw [hsch]
    dsimp only
    rw [htake, hdrop]
    simp [hv]
  have hattr : tryAttr
      ('s' :: 'r' :: 'c' :: '=' :: dq ::
        'h' :: 't' :: 't' :: 'p' :: 's' :: ':' :: '/' :: '/' :: (v ++ [dq])) =
      some (['s', 'r', 'c'],
        '=' :: dq :: 'h' :: 't' :: 't' :: 'p' :: 's' :: ':' :: '/' :: '/' :: (v ++ [dq])) := rfl
  have hguard : (('=' : Char) = '=' ∧ (dq = dq ∨ dq = sq)) := ⟨rfl, Or.inl rfl⟩
  have htm : tryMatch1
      ('s' :: 'r' :: 'c' :: '=' :: dq ::
        'h' :: 't' :: 't' :: 'p' :: 's' :: ':' :: '/' :: '/' :: (v ++ [dq])) =
      some { matched := ['s', 'r', 'c'] ++ '=' :: dq ::
                (['h', 't', 't', 'p', 's', ':', '/', '/'] ++ v) ++ [dq]
           , url := ['h', 't', 't', 'p', 's', ':', '/', '/'] ++ v
           , attr := ['s', 'r', 'c']
           , quote := dq
           , rest := [] } := by
    unfold tryMatch1
    rw [hattr]
    dsimp only
    rw [if_pos hguard, htq]
  have hallow' : hostAllowedUrl ⟨['h', 't', 't', 'p', 's', ':', '/', '/'] ++ v⟩ = true := by
    simpa using hallow
  have hstep : pass1A (f + 1)
      ('s' :: 'r' :: 'c' :: '=' :: dq ::
        'h' :: 't' :: 't' :: 'p' :: 's' :: ':' :: '/' :: '/' :: (v ++ [dq])) =
      repl1 { matched := ['s', 'r', 'c'] ++ '=' :: dq ::
                (['h', 't', 't', 'p', 's', ':', '/', '/'] ++ v) ++ [dq]
            , url := ['h', 't', 't', 'p', 's', ':', '/', '/'] ++ v
            , attr := ['s', 'r', 'c']
            , quote := dq
            , rest := [] } ++ pass1A f [] := by
    simp [pass1A, htm]
  rw [hstep, repl1]
  rw [if_pos hallow']
  have hnil : pass1A f [] = [] := by cases f <;> rfl
  rw [hnil]
  simp

/-! ### Claim C4 -/
/-- C4: HTML rewriting is gated by the allowlist.  (1) For every
well-formed structured body — any mix of `src`/`href` attributes in double
or single quotes, quoted string literals in any of the three quote
characters, each holding an absolute `http`/`https` URL, between inert
separators — the rewrite maps each segment independently: a URL occurrence
is replaced by the same-origin proxied path
`/api/proxy?target=<url-encoded original>` exactly when its host passes
the allowlist (`rewriteItem`), and is left byte-for-byte unchanged
otherwise.  (2) A double-quoted `src` attribute holding an allowlisted
absolute `https` URL with an arbitrary quote-free tail is rewritten to the
proxied path.  (3) When every URL either pass matches in an arbitrary body
is non-allowlisted, the whole body is left byte-for-byte untouched.
(4) The spec's concrete test: of two `src` attributes only the allowlisted
one is rewritten. -/
theorem C4_rewrite_allowlist_gated :
    (∀ items : List HtmlItem, (∀ i ∈ items, wfItem i = true) →
      rewriteAbsoluteUrlsToProxy ⟨renderAll items⟩ = ⟨rewriteAll items⟩) ∧
    (∀ u rest : String, u = "https://" ++ rest → rest.data ≠ [] →
      (∀ c ∈ rest.data, c ≠ dq) → hostAllowedUrl u = true →
      rewriteAbsoluteUrlsToProxy ("src=" ++ dqS ++ u ++ dqS) =
        "src=" ++ dqS ++ "/api/proxy?target=" ++ encodeURIComponent u ++ dqS) ∧
    (∀ html : String, (∀ u ∈ foundUrls html, hostAllowedUrl u = false) →
      rewriteAbsoluteUrlsToProxy html = html) ∧
    rewriteAbsoluteUrlsToProxy
        "<img src=\"https://vidsrc.to/a.jpg\"><img src=\"https://evil.com/b.jpg\">" =
      "<img src=\"/api/proxy?target=https%3A%2F%2Fvidsrc.to%2Fa.jpg\"><img src=\"https://evil.com/b.jpg\">" := by
  refine ⟨?_, ?_, ?_, by decide⟩
  · intro items hwf
    have h1 := pass1_items items hwf 0
    rw [Nat.zero_add] at h1
    have h2 := pass2_items items hwf 0
    rw [Nat.zero_add] at h2
    have hp1 : pass1 ⟨renderAll items⟩ = ⟨items.flatMap pass1Item⟩ :=
      congrArg (fun l => (⟨l⟩ : String)) h1
    have hp2 : pass2 ⟨items.flatMap pass1Item⟩ = ⟨rewriteAll items⟩ :=
      congrArg (fun l => (⟨l⟩ : String)) h2
    show pass2 (pass1 ⟨renderAll items⟩) = ⟨rewriteAll items⟩
    rw [hp1, hp2]
  · intro u rest hu hne hq hallow
    subst hu
    have hud : ("https://" ++ rest).data =
        'h' :: 't' :: 't' :: 'p' :: 's' :: ':' :: '/' :: '/' :: rest.data := by
      rw [String.data_append]
      rfl
    have hhtml : ("src=" ++ dqS ++ ("https://" ++ rest) ++ dqS).data =
        's' :: 'r' :: 'c' :: '=' :: dq ::
          ('h' :: 't' :: 't' :: 'p' :: 's' :: ':' :: '/' :: '/' :: (rest.data ++ [dq])) := by
      simp only [String.data_append, hud]
      rfl
    have hallow' : hostAllowedUrl
        ⟨'h' :: 't' :: 't' :: 'p' :: 's' :: ':' :: '/' :: '/' :: rest.data⟩ = true := hallow
    have hp1 : (pass1 ("src=" ++ dqS ++ ("https://" ++ rest) ++ dqS)).data =
        's' :: 'r' :: 'c' :: '=' :: dq ::
          (("/api/proxy?target=".data ++
            encodeURIComponentL
              ('h' :: 't' :: 't' :: 'p' :: 's' :: ':' :: '/' :: '/' :: rest.data)) ++ [dq]) := by
      unfold pass1
      rw [hhtml, List.length_cons]
      exact pass1A_src_attr _ rest.data hne hq hallow'
    have hnocolon : (':' : Char) ∉
        's' :: 'r' :: 'c' :: '=' :: dq ::
          (("/api/proxy?target=".data ++
            encodeURIComponentL
              ('h' :: 't' :: 't' :: 'p' :: 's' :: ':' :: '/' :: '/' :: rest.data)) ++ [dq]) := by
      intro hmem
      simp only [List.mem_cons, List.mem_append] at hmem
      rcases hmem with h | h | h | h | h | (h | h) | h
      · exact absurd h (by decide)
      · exact absurd h (by decide)
      · exact absurd h (by decide)
      · exact absurd h (by decide)
      · exact absurd h (by decide)
      · exact absurd h (by decide)
      · exact colon_not_mem_enc _ h
      · exact absurd h (by decide)
    have hp2 : rewriteAbsoluteUrlsToProxy ("src=" ++ dqS ++ ("https://" ++ rest) ++ dqS) =
        pass1 ("src=" ++ dqS ++ ("https://" ++ rest) ++ dqS) := by
      unfold rewriteAbsoluteUrlsToProxy pass2
      rw [hp1]
      rw [pass2A_no_colon _ _ hnocolon]
      exact String.ext (by rw [hp1])
    rw [hp2]
    apply String.ext
    rw [hp1]
    simp only [String.data_append]
    have hencu : (encodeURIComponent ("https://" ++ rest)).data =
        encodeURIComponentL ('h' :: 't' :: 't' :: 'p' :: 's' :: ':' :: '/' :: '/' :: rest.data) := by
      unfold encodeURIComponent
      rw [hud]
    rw [hencu]
    rfl
  · intro html hfound
    have h1 : pass1A html.data.length html.data = html.data := by
      apply pass1A_id
      intro u hu
      refine hfound ⟨u⟩ ?_
      simp only [foundUrls, List.mem_append, List.mem_map]
      exact Or.inl ⟨u, hu, rfl⟩
    have hp1 : pass1 html = html := by
      unfold pass1
      rw [h1]
    have h2 : pass2A (pass1 html).data.length (pass1 html).data = (pass1 html).data := by
      apply pass2A_id
      intro u hu
      refine hfound ⟨u⟩ ?_
      simp only [foundUrls, List.mem_append, List.mem_map]
      exact Or.inr ⟨u, hu, rfl⟩
    calc rewriteAbsoluteUrlsToProxy html
        = ⟨pass2A (pass1 html).data.length (pass1 html).data⟩ := rfl
      _ = ⟨(pass1 html).data⟩ := by rw [h2]
      _ = pass1 html := rfl
      _ = html := hp1

/-- Witness for C4: the structured-body conjunct applied to the mixed
demonstration body (`src` and `href`, double and single quotes, `http` and
`https`, quoted literals, allowlisted and not), the single-attribute
conjunct applied to the allowlisted URL `https://vidsrc.to/a.jpg`, and the
untouched conjunct applied to a body whose only URL is non-allowlisted. -/
theorem C4_rewrite_allowlist_gated_witness :
    rewriteAbsoluteUrlsToProxy ⟨renderAll demoRewriteItems⟩ = ⟨rewriteAll demoRewriteItems⟩ ∧
    rewriteAbsoluteUrlsToProxy ("src=" ++ dqS ++ "https://vidsrc.to/a.jpg" ++ dqS) =
      "src=" ++ dqS ++ "/api/proxy?target=" ++
        encodeURIComponent "https://vidsrc.to/a.jpg" ++ dqS ∧
    rewriteAbsoluteUrlsToProxy "<img src=\"https://evil.com/b.jpg\">" =
      "<img src=\"https://evil.com/b.jpg\">" :=
  ⟨C4_rewrite_allowlist_gated.1 demoRewriteItems (by decide),
   C4_rewrite_allowlist_gated.2.1 "https://vidsrc.to/a.jpg" "vidsrc.to/a.jpg" (by decide)
      (by decide) (by decide) (by decide),
   C4_rewrite_allowlist_gated.2.2.1 "<img src=\"https://evil.com/b.jpg\">" (by decide)⟩

end Atto4

